import Mathlib

/-!
# jirar: the issue-retrieval and result-shaping pipeline

A shallow embedding of the Go sources

* `internal/jira/client.go`   (search options),
* `internal/jira/rest_client.go` (the typed REST client),
* `internal/jira/types.go`    (the typed issue model),
* `internal/config/config.go` (configuration validation),
* `cmd/app/main.go`           (the legacy notification path and its table),

followed by theorems about them.  Go `int` values are embedded as `Int`
(no arithmetic is performed on them by the embedded code, they are only
stored, compared and printed).  Go strings are embedded as `String`.
Logging calls have no influence on results and are left out.
-/

set_option autoImplicit false

namespace Jirar

/-! ## `fmt.Sprintf("%d", n)` -/

/-- Decimal rendering of an integer, as `fmt.Sprintf("%d", n)` produces it:
the decimal digits of the magnitude, preceded by `-` when negative. -/
def formatInt : Int → String
  | Int.ofNat m => Nat.repr m
  | Int.negSucc m => "-" ++ Nat.repr (m + 1)

/-! ## `internal/config/config.go`: `JiraConfig` -/

/-- Go `config.JiraConfig`. -/
structure JiraConfig where
  Domain : String
  Email : String
  Token : String
  deriving Repr, DecidableEq

/-! ## `internal/jira/client.go`: search options -/

/-- Go `jira.SearchOptions`. -/
structure SearchOptions where
  Limit : Int
  StartAt : Int
  Fields : List String
  Expand : List String
  deriving Repr, DecidableEq

/-- Go `type SearchOption func(*SearchOptions)`: the in-place update of the
options struct is embedded as a function from the old to the new value. -/
abbrev SearchOption := SearchOptions → SearchOptions

/-- Go `WithLimit`: `opts.Limit = limit`. -/
def WithLimit (limit : Int) : SearchOption :=
  fun opts => { opts with Limit := limit }

/-- Go `WithStartAt`: `opts.StartAt = startAt`. -/
def WithStartAt (startAt : Int) : SearchOption :=
  fun opts => { opts with StartAt := startAt }

/-- Go `WithFields`: `opts.Fields = append(opts.Fields, fields...)`. -/
def WithFields (fields : List String) : SearchOption :=
  fun opts => { opts with Fields := opts.Fields ++ fields }

/-- Go `WithExpand`: `opts.Expand = append(opts.Expand, expand...)`. -/
def WithExpand (expand : List String) : SearchOption :=
  fun opts => { opts with Expand := opts.Expand ++ expand }

/-- The four ways the package offers to build a `SearchOption`, as data, so
that a list of options can be inspected ("the last `WithLimit` of the list"). -/
inductive OptionCall where
  | withLimit (limit : Int)
  | withStartAt (startAt : Int)
  | withFields (fields : List String)
  | withExpand (expand : List String)
  deriving Repr, DecidableEq

/-- The `SearchOption` closure that a call builds. -/
def OptionCall.toOption : OptionCall → SearchOption
  | .withLimit limit => WithLimit limit
  | .withStartAt startAt => WithStartAt startAt
  | .withFields fields => WithFields fields
  | .withExpand expand => WithExpand expand

/-! ## `internal/jira/rest_client.go`: building the search request -/

/-- The base options literal at the head of `restClient.SearchIssues`
(`Expand` is left at its zero value, the nil slice). -/
def defaultSearchOptions : SearchOptions :=
  { Limit := 50
    StartAt := 0
    Fields := ["summary", "status", "priority", "assignee", "updated", "created", "project"]
    Expand := [] }

/-- The loop `for _, opt := range opts { opt(options) }` of `SearchIssues`. -/
def applyOptions (opts : List SearchOption) : SearchOptions :=
  opts.foldl (fun options opt => opt options) defaultSearchOptions

/-- The options `SearchIssues` ends up with for a list of option calls. -/
def composedOptions (calls : List OptionCall) : SearchOptions :=
  applyOptions (calls.map OptionCall.toOption)

/-- What a resty request carries once `SearchIssues`, `GetIssue` or
`GetCurrentUser` has configured it. -/
structure Request where
  url : String
  basicAuthUser : String
  basicAuthPassword : String
  queryParams : List (String × String)
  headers : List (String × String)
  deriving Repr, DecidableEq

/-- Value of a query parameter of a request (`none` when it was never set). -/
def Request.queryParam (r : Request) (name : String) : Option String :=
  (r.queryParams.find? (fun p => p.1 == name)).map Prod.snd

/-- The request `restClient.SearchIssues` builds: url
`<domain>/rest/api/3/search`, basic auth, and the four `SetQueryParam` calls
in source order.  The `fields` parameter is the string literal of the source. -/
def searchRequest (cfg : JiraConfig) (jql : String) (opts : List SearchOption) : Request :=
  let options := applyOptions opts
  { url := cfg.Domain ++ "/rest/api/3/search"
    basicAuthUser := cfg.Email
    basicAuthPassword := cfg.Token
    queryParams :=
      [ ("jql", jql),
        ("fields", "summary,status,priority,assignee,updated,created,project"),
        ("maxResults", formatInt options.Limit),
        ("startAt", formatInt options.StartAt) ]
    headers := [("Accept", "application/json")] }

/-! ### Reading a list of option calls (specification side) -/

/-- Specification side: the argument of the last `WithLimit` of a list of
option calls, `none` when the list has no `WithLimit`. -/
def specLastLimit : List OptionCall → Option Int
  | [] => none
  | c :: rest =>
    match specLastLimit rest with
    | some n => some n
    | none =>
      match c with
      | .withLimit n => some n
      | _ => none

/-- Specification side: the argument of the last `WithStartAt` of a list of
option calls, `none` when the list has no `WithStartAt`. -/
def specLastStartAt : List OptionCall → Option Int
  | [] => none
  | c :: rest =>
    match specLastStartAt rest with
    | some n => some n
    | none =>
      match c with
      | .withStartAt n => some n
      | _ => none

/-- Specification side: the arguments of every `WithFields` of the list,
concatenated in list order. -/
def specAllFields : List OptionCall → List String
  | [] => []
  | .withFields fields :: rest => fields ++ specAllFields rest
  | _ :: rest => specAllFields rest

/-- Specification side: the arguments of every `WithExpand` of the list,
concatenated in list order. -/
def specAllExpand : List OptionCall → List String
  | [] => []
  | .withExpand expand :: rest => expand ++ specAllExpand rest
  | _ :: rest => specAllExpand rest

/-- An option call that sets a scalar (`WithLimit`, `WithStartAt`). -/
def OptionCall.isScalar : OptionCall → Bool
  | .withLimit _ => true
  | .withStartAt _ => true
  | _ => false

/-! ## JSON values and `encoding/json` decoding into Go values

The response body is embedded as its JSON syntax tree.  The rules of
`json.Unmarshal` that the struct types of this program exercise are:

* a JSON `null` leaves a string, number, bool or struct target unchanged and
  sets a slice target to nil;
* a member of a JSON object is stored into the struct field whose `json` tag
  equals the member name, or else equals it under case folding; members that
  match no field are ignored; members are processed in order, so a later
  duplicate is stored over an earlier one;
* a value of the wrong JSON kind for its target makes `Unmarshal` return an
  error (the embedded decoders return `none`: the callers discard the
  partially filled value whenever the error is non-nil, so only the
  distinction error / no error is kept);
* a JSON array stored into a slice decodes its element number `i` into the
  element the slice's backing array already holds at position `i` (an element
  of the slice, or one left in its spare capacity when an earlier, longer
  array was cut by a shorter one), and into a zero element beyond those; the
  slice ends with the length of the array; an empty array and `null` give a
  fresh slice.
-/

/-- A JSON value.  Number literals are split into integer literals (no
fraction, no exponent) and all others, kept as text. -/
inductive JSON where
  | null
  | bool (b : Bool)
  | int (n : Int)
  | real (literal : String)
  | str (s : String)
  | arr (elems : List JSON)
  | obj (members : List (String × JSON))

/-- Case folding of one rune of a member name, as `encoding/json` folds names
before comparing them with ASCII field names: ASCII letters go to upper case;
the only non-ASCII runes whose fold orbit contains an ASCII letter are the
Kelvin sign (to `K`) and the long s (to `S`). -/
def foldRune (c : Char) : Char :=
  if 97 ≤ c.toNat ∧ c.toNat ≤ 122 then Char.ofNat (c.toNat - 32)
  else if c.toNat = 0x212A then 'K'
  else if c.toNat = 0x017F then 'S'
  else c

/-- Folded form of a member or field name. -/
def foldName (s : String) : List Char :=
  s.toList.map foldRune

/-- Position of the first name satisfying `p`. -/
def indexWhere (p : String → Bool) : List String → Option Nat
  | [] => none
  | n :: ns => if p n then some 0 else (indexWhere p ns).map (· + 1)

/-- The struct field (by position among the `json` tags `names`) that a member
name selects: an exact match if there is one, otherwise a match under case
folding, otherwise none. -/
def fieldIndex (names : List String) (key : String) : Option Nat :=
  match indexWhere (fun n => n == key) names with
  | some i => some i
  | none => indexWhere (fun n => foldName n == foldName key) names

/-- Store a JSON value into a Go `string`. -/
def storeString (cur : String) : JSON → Option String
  | .null => some cur
  | .str s => some s
  | _ => none

/-- Store a JSON value into a Go `bool`. -/
def storeBool (cur : Bool) : JSON → Option Bool
  | .null => some cur
  | .bool b => some b
  | _ => none

/-- Store a JSON value into a Go `int` (64 bits): only an integer literal in
range is accepted. -/
def storeInt (cur : Int) : JSON → Option Int
  | .null => some cur
  | .int n => if -(2 ^ 63) ≤ n ∧ n < 2 ^ 63 then some n else none
  | _ => none

/-- Store a JSON object into a Go struct whose `json` tags are `names` and
whose field number `i` is updated by `setField i`. -/
def storeStruct {α : Type} (names : List String) (setField : Nat → α → JSON → Option α)
    (cur : α) : JSON → Option α
  | .null => some cur
  | .obj members =>
    members.foldlM
      (fun acc m =>
        match fieldIndex names m.1 with
        | none => some acc
        | some i => setField i acc m.2)
      cur
  | _ => none

/-- A Go slice under decoding: its elements, and the values still held by its
backing array past its length (`spare`; positions beyond those are zero). -/
structure Slice (α : Type) where
  elems : List α
  spare : List α

/-- Decode the elements of a JSON array in turn, element `i` into `targets[i]`
where the backing array holds one and into `zero` otherwise, failing when one
element fails. -/
def decodeOnto {α : Type} (decodeInto : α → JSON → Option α) (zero : α) :
    List α → List JSON → Option (List α)
  | _, [] => some []
  | targets, x :: xs =>
    match decodeInto (targets.headD zero) x with
    | none => none
    | some a =>
      match decodeOnto decodeInto zero targets.tail xs with
      | none => none
      | some as => some (a :: as)

/-- Store a JSON value into a Go slice: `null` and the empty array give a
fresh slice; a non-empty array is decoded element by element onto the backing
array (`decodeOnto`), the slice takes the length of the array, and what the
backing array held past that length stays in the spare capacity. -/
def storeSlice {α : Type} (decodeInto : α → JSON → Option α) (zero : α) (cur : Slice α) :
    JSON → Option (Slice α)
  | .null => some ⟨[], []⟩
  | .arr elems =>
    match elems with
    | [] => some ⟨[], []⟩
    | _ :: _ =>
      (decodeOnto decodeInto zero (cur.elems ++ cur.spare) elems).map fun vs =>
        ⟨vs, (cur.elems ++ cur.spare).drop elems.length⟩
  | _ => none

/-! ## `time.Time` -/

/-- A Go `time.Time`, embedded by what its accessors report in the location
the value carries: calendar date, clock time, and the offset of that location
east of UTC in seconds. -/
structure Time where
  year : Int
  month : Nat
  day : Nat
  hour : Nat
  minute : Nat
  second : Nat
  nanosecond : Nat
  zoneOffset : Int
  deriving Repr, DecidableEq

/-- The zero `time.Time{}`: January 1, year 1, 00:00:00 UTC. -/
def Time.zero : Time :=
  { year := 1, month := 1, day := 1, hour := 0, minute := 0, second := 0,
    nanosecond := 0, zoneOffset := 0 }

/-- Store a JSON value into a `time.Time` (its `UnmarshalJSON`): `null` is a
no-op, a string is parsed as RFC 3339 by `rfc3339`, anything else is an
error.  The RFC 3339 parser of the standard library is a parameter. -/
def storeTime (rfc3339 : String → Option Time) (cur : Time) : JSON → Option Time
  | .null => some cur
  | .str s => rfc3339 s
  | _ => none

/-! ## `internal/jira/types.go` -/

/-- Go `jira.StatusCategory`. -/
structure StatusCategory where
  Key : String
  Name : String
  ColorName : String
  deriving Repr, DecidableEq

/-- Go `jira.Status`. -/
structure Status where
  Name : String
  ID : String
  StatusCategory : StatusCategory
  deriving Repr, DecidableEq

/-- Go `jira.Priority`. -/
structure Priority where
  Name : String
  ID : String
  IconURL : String
  deriving Repr, DecidableEq

/-- Go `jira.User`. -/
structure User where
  Name : String
  DisplayName : String
  Email : String
  Active : Bool
  deriving Repr, DecidableEq

/-- Go `jira.Project`. -/
structure Project where
  Key : String
  Name : String
  ID : String
  deriving Repr, DecidableEq

/-- Go `jira.IssueType`. -/
structure IssueType where
  Name : String
  ID : String
  IconURL : String
  deriving Repr, DecidableEq

/-- Go `jira.Fields`. -/
structure Fields where
  Summary : String
  Description : String
  Status : Status
  Priority : Priority
  Assignee : User
  Reporter : User
  Created : Time
  Updated : Time
  DueDate : Time
  Project : Project
  IssueType : IssueType
  deriving Repr, DecidableEq

/-- Go `jira.Issue`. -/
structure Issue where
  Key : String
  ID : String
  Self : String
  Fields : Fields
  deriving Repr, DecidableEq

/-- Go `jira.SearchResult`. -/
structure SearchResult where
  StartAt : Int
  MaxResults : Int
  Total : Int
  Issues : List Issue
  deriving Repr, DecidableEq

/-- Zero value of `StatusCategory`. -/
def StatusCategory.zero : StatusCategory := ⟨"", "", ""⟩
/-- Zero value of `Status`. -/
def Status.zero : Status := ⟨"", "", StatusCategory.zero⟩
/-- Zero value of `Priority`. -/
def Priority.zero : Priority := ⟨"", "", ""⟩
/-- Zero value of `User`: the empty user. -/
def User.zero : User := ⟨"", "", "", false⟩
/-- Zero value of `Project`. -/
def Project.zero : Project := ⟨"", "", ""⟩
/-- Zero value of `IssueType`. -/
def IssueType.zero : IssueType := ⟨"", "", ""⟩
/-- Zero value of `Fields`. -/
def Fields.zero : Fields :=
  { Summary := "", Description := "", Status := Status.zero, Priority := Priority.zero,
    Assignee := User.zero, Reporter := User.zero, Created := Time.zero, Updated := Time.zero,
    DueDate := Time.zero, Project := Project.zero, IssueType := IssueType.zero }
/-- Zero value of `Issue`. -/
def Issue.zero : Issue := ⟨"", "", "", Fields.zero⟩
/-- Zero value of `SearchResult` (`Issues` is the nil slice). -/
def SearchResult.zero : SearchResult := ⟨0, 0, 0, []⟩

/-! ### Decoders of the typed model

Each `setField i` stores into the field with position `i` in `names`, the
list of the struct's `json` tags in declaration order. -/

/-- The `json` tags of `StatusCategory`. -/
def StatusCategory.names : List String := ["key", "name", "colorName"]

/-- Store a member value into the field of a `StatusCategory`. -/
def StatusCategory.setField (i : Nat) (v : StatusCategory) (j : JSON) : Option StatusCategory :=
  match i with
  | 0 => (storeString v.Key j).map fun x => { v with Key := x }
  | 1 => (storeString v.Name j).map fun x => { v with Name := x }
  | 2 => (storeString v.ColorName j).map fun x => { v with ColorName := x }
  | _ => some v

/-- Store a JSON value into a `StatusCategory`. -/
def StatusCategory.store : StatusCategory → JSON → Option StatusCategory :=
  storeStruct StatusCategory.names StatusCategory.setField

/-- The `json` tags of `Status`. -/
def Status.names : List String := ["name", "id", "statusCategory"]

/-- Store a member value into the field of a `Status`. -/
def Status.setField (i : Nat) (v : Status) (j : JSON) : Option Status :=
  match i with
  | 0 => (storeString v.Name j).map fun x => { v with Name := x }
  | 1 => (storeString v.ID j).map fun x => { v with ID := x }
  | 2 => (StatusCategory.store v.StatusCategory j).map fun x => { v with StatusCategory := x }
  | _ => some v

/-- Store a JSON value into a `Status`. -/
def Status.store : Status → JSON → Option Status :=
  storeStruct Status.names Status.setField

/-- The `json` tags of `Priority`. -/
def Priority.names : List String := ["name", "id", "iconUrl"]

/-- Store a member value into the field of a `Priority`. -/
def Priority.setField (i : Nat) (v : Priority) (j : JSON) : Option Priority :=
  match i with
  | 0 => (storeString v.Name j).map fun x => { v with Name := x }
  | 1 => (storeString v.ID j).map fun x => { v with ID := x }
  | 2 => (storeString v.IconURL j).map fun x => { v with IconURL := x }
  | _ => some v

/-- Store a JSON value into a `Priority`. -/
def Priority.store : Priority → JSON → Option Priority :=
  storeStruct Priority.names Priority.setField

/-- The `json` tags of `User`. -/
def User.names : List String := ["name", "displayName", "emailAddress", "active"]

/-- Store a member value into the field of a `User`. -/
def User.setField (i : Nat) (v : User) (j : JSON) : Option User :=
  match i with
  | 0 => (storeString v.Name j).map fun x => { v with Name := x }
  | 1 => (storeString v.DisplayName j).map fun x => { v with DisplayName := x }
  | 2 => (storeString v.Email j).map fun x => { v with Email := x }
  | 3 => (storeBool v.Active j).map fun x => { v with Active := x }
  | _ => some v

/-- Store a JSON value into a `User`. -/
def User.store : User → JSON → Option User :=
  storeStruct User.names User.setField

/-- The `json` tags of `Project`. -/
def Project.names : List String := ["key", "name", "id"]

/-- Store a member value into the field of a `Project`. -/
def Project.setField (i : Nat) (v : Project) (j : JSON) : Option Project :=
  match i with
  | 0 => (storeString v.Key j).map fun x => { v with Key := x }
  | 1 => (storeString v.Name j).map fun x => { v with Name := x }
  | 2 => (storeString v.ID j).map fun x => { v with ID := x }
  | _ => some v

/-- Store a JSON value into a `Project`. -/
def Project.store : Project → JSON → Option Project :=
  storeStruct Project.names Project.setField

/-- The `json` tags of `IssueType`. -/
def IssueType.names : List String := ["name", "id", "iconUrl"]

/-- Store a member value into the field of an `IssueType`. -/
def IssueType.setField (i : Nat) (v : IssueType) (j : JSON) : Option IssueType :=
  match i with
  | 0 => (storeString v.Name j).map fun x => { v with Name := x }
  | 1 => (storeString v.ID j).map fun x => { v with ID := x }
  | 2 => (storeString v.IconURL j).map fun x => { v with IconURL := x }
  | _ => some v

/-- Store a JSON value into an `IssueType`. -/
def IssueType.store : IssueType → JSON → Option IssueType :=
  storeStruct IssueType.names IssueType.setField

/-- The `json` tags of `Fields`. -/
def Fields.names : List String :=
  ["summary", "description", "status", "priority", "assignee", "reporter", "created",
   "updated", "duedate", "project", "issuetype"]

/-- Store a member value into the field of a `Fields`. -/
def Fields.setField (rfc3339 : String → Option Time) (i : Nat) (v : Fields) (j : JSON) :
    Option Fields :=
  match i with
  | 0 => (storeString v.Summary j).map fun x => { v with Summary := x }
  | 1 => (storeString v.Description j).map fun x => { v with Description := x }
  | 2 => (Status.store v.Status j).map fun x => { v with Status := x }
  | 3 => (Priority.store v.Priority j).map fun x => { v with Priority := x }
  | 4 => (User.store v.Assignee j).map fun x => { v with Assignee := x }
  | 5 => (User.store v.Reporter j).map fun x => { v with Reporter := x }
  | 6 => (storeTime rfc3339 v.Created j).map fun x => { v with Created := x }
  | 7 => (storeTime rfc3339 v.Updated j).map fun x => { v with Updated := x }
  | 8 => (storeTime rfc3339 v.DueDate j).map fun x => { v with DueDate := x }
  | 9 => (Project.store v.Project j).map fun x => { v with Project := x }
  | 10 => (IssueType.store v.IssueType j).map fun x => { v with IssueType := x }
  | _ => some v

/-- Store a JSON value into a `Fields`. -/
def Fields.store (rfc3339 : String → Option Time) : Fields → JSON → Option Fields :=
  storeStruct Fields.names (Fields.setField rfc3339)

/-- The `json` tags of `Issue`. -/
def Issue.names : List String := ["key", "id", "self", "fields"]

/-- Store a member value into the field of an `Issue`. -/
def Issue.setField (rfc3339 : String → Option Time) (i : Nat) (v : Issue) (j : JSON) :
    Option Issue :=
  match i with
  | 0 => (storeString v.Key j).map fun x => { v with Key := x }
  | 1 => (storeString v.ID j).map fun x => { v with ID := x }
  | 2 => (storeString v.Self j).map fun x => { v with Self := x }
  | 3 => (Fields.store rfc3339 v.Fields j).map fun x => { v with Fields := x }
  | _ => some v

/-- Store a JSON value into an `Issue`. -/
def Issue.store (rfc3339 : String → Option Time) : Issue → JSON → Option Issue :=
  storeStruct Issue.names (Issue.setField rfc3339)

/-- The `json` tags of `SearchResult`. -/
def SearchResult.names : List String := ["startAt", "maxResults", "total", "issues"]

/-- A `SearchResult` under decoding: the value, and what the backing array of
its `Issues` slice holds past the slice's length. -/
structure SearchResult.Decoding where
  value : SearchResult
  spare : List Issue

/-- Store a member value into the field of a `SearchResult` under decoding. -/
def SearchResult.setField (rfc3339 : String → Option Time) (i : Nat)
    (v : SearchResult.Decoding) (j : JSON) : Option SearchResult.Decoding :=
  match i with
  | 0 => (storeInt v.value.StartAt j).map fun x =>
      { v with value := { v.value with StartAt := x } }
  | 1 => (storeInt v.value.MaxResults j).map fun x =>
      { v with value := { v.value with MaxResults := x } }
  | 2 => (storeInt v.value.Total j).map fun x =>
      { v with value := { v.value with Total := x } }
  | 3 => (storeSlice (Issue.store rfc3339) Issue.zero ⟨v.value.Issues, v.spare⟩ j).map fun x =>
      { value := { v.value with Issues := x.elems }, spare := x.spare }
  | _ => some v

/-- Store a JSON value into a `SearchResult` under decoding. -/
def SearchResult.storeInto (rfc3339 : String → Option Time) :
    SearchResult.Decoding → JSON → Option SearchResult.Decoding :=
  storeStruct SearchResult.names (SearchResult.setField rfc3339)

/-- Store a JSON value into a `SearchResult` whose `Issues` slice has no spare
capacity (as the fresh `var result SearchResult` of `SearchIssues`). -/
def SearchResult.store (rfc3339 : String → Option Time) (cur : SearchResult) (j : JSON) :
    Option SearchResult :=
  (SearchResult.storeInto rfc3339 ⟨cur, []⟩ j).map fun t => t.value

/-- Go `json.Unmarshal(body, &v)` for a `v` starting at `zero`: `none` when it
returns an error, which includes a body that is not valid JSON text (embedded
as the body `none`). -/
def unmarshal {α : Type} (store : α → JSON → Option α) (zero : α) : Option JSON → Option α
  | none => none
  | some j => store zero j

/-! ## `internal/jira/rest_client.go`: the client -/

/-- What one execution of a request hands back: the response's status code
(0 when there is no raw response), its body as a JSON tree (`none` when the
bytes are not valid JSON), and the transport error text, if any. -/
structure Exchange where
  StatusCode : Int
  Body : Option JSON
  err : Option String

/-- The closure passed to `AddRetryCondition` in `NewClient`:
`r.StatusCode() >= 500 || err != nil`. -/
def retryCondition (x : Exchange) : Bool :=
  decide (x.StatusCode ≥ 500) || x.err.isSome

/-- The settings `NewClient` installs on the resty client. -/
structure ClientSettings where
  timeoutSeconds : Nat
  retryCount : Nat
  retryWaitSeconds : Nat
  retryCondition : Exchange → Bool

/-- Go `restClient` (the logger is left out). -/
structure restClient where
  client : ClientSettings
  config : JiraConfig

/-- Go `NewClient`: timeout 30 s, retry count 3, retry wait 1 s, and the retry
condition above. -/
def NewClient (cfg : JiraConfig) : restClient :=
  { client :=
      { timeoutSeconds := 30
        retryCount := 3
        retryWaitSeconds := 1
        retryCondition := retryCondition }
    config := cfg }

/-- Modelled from the spec: the retry loop of the HTTP client library, which
is not under `src/` (only the settings handed to it are).  Attempt number `n`
is made; if retries remain and the retry condition holds of its outcome the
next attempt is made, otherwise this outcome is returned together with the
number of attempts made.  So a request is attempted once plus at most
`retryCount` additional times, and an outcome the condition rejects is
returned immediately.  The wait between attempts is not modelled. -/
def attemptLoop (retry : Exchange → Bool) (attempt : Nat → Exchange) :
    (retriesLeft : Nat) → (n : Nat) → Exchange × Nat
  | 0, n => (attempt n, n + 1)
  | k + 1, n =>
    if retry (attempt n) then attemptLoop retry attempt k (n + 1)
    else (attempt n, n + 1)

/-- Modelled from the spec: executing a request under the client's settings,
where `attempt n` is the outcome of attempt number `n` (from 0).  Returns the
final outcome and the number of attempts made. -/
def ClientSettings.execute (s : ClientSettings) (attempt : Nat → Exchange) : Exchange × Nat :=
  attemptLoop s.retryCondition attempt s.retryCount 0

/-- The call `c.client.R(). ... .Get(url)` against a server whose answer to
attempt `n` of request `req` is `server req n`: what the call returns (the
final outcome of executing the request under the client's settings) together
with the number of attempts the server saw. -/
def restClient.getCounted (c : restClient) (server : Request → Nat → Exchange)
    (req : Request) : Exchange × Nat :=
  c.client.execute (server req)

/-- What `c.client.R(). ... .Get(url)` returns. -/
def restClient.get (c : restClient) (server : Request → Nat → Exchange) (req : Request) :
    Exchange :=
  (c.getCounted server req).1

/-- The errors the client operations return.  `requestFailed` and `apiStatus`
carry the error text; `parseFailed` is `fmt.Errorf("parse response failed: %w", err)`,
whose wrapped `encoding/json` error text is not modelled. -/
inductive ClientError where
  | requestFailed (message : String)
  | apiStatus (message : String)
  | parseFailed
  deriving Repr, DecidableEq

/-- The part common to the three operations, after `Get` returned: a transport
error is wrapped with `context`; a status other than 200 gives the API error
with the status in its text; otherwise the body is unmarshalled. -/
def handleResponse {α : Type} (context : String) (decode : Option JSON → Option α)
    (x : Exchange) : Except ClientError α :=
  match x.err with
  | some cause => .error (.requestFailed (context ++ ": " ++ cause))
  | none =>
    if x.StatusCode ≠ 200 then
      .error (.apiStatus ("API request failed with status " ++ formatInt x.StatusCode))
    else
      match decode x.Body with
      | none => .error .parseFailed
      | some v => .ok v

/-- Go `restClient.SearchIssues`, observed from outside: what the call returns,
together with the number of attempts the server saw while it ran.  The one
`Get` of the function body yields both. -/
def restClient.SearchIssuesCounted (c : restClient) (rfc3339 : String → Option Time)
    (server : Request → Nat → Exchange) (jql : String) (opts : List SearchOption) :
    Except ClientError SearchResult × Nat :=
  let got := c.getCounted server (searchRequest c.config jql opts)
  (handleResponse "search failed" (unmarshal (SearchResult.store rfc3339) SearchResult.zero)
    got.1, got.2)

/-- Go `restClient.SearchIssues`: what the call returns. -/
def restClient.SearchIssues (c : restClient) (rfc3339 : String → Option Time)
    (server : Request → Nat → Exchange) (jql : String) (opts : List SearchOption) :
    Except ClientError SearchResult :=
  (c.SearchIssuesCounted rfc3339 server jql opts).1

/-- The request `restClient.GetIssue` builds. -/
def issueRequest (cfg : JiraConfig) (key : String) : Request :=
  { url := cfg.Domain ++ "/rest/api/3/issue/" ++ key
    basicAuthUser := cfg.Email
    basicAuthPassword := cfg.Token
    queryParams :=
      [("fields", "summary,status,priority,assignee,updated,created,project,description,reporter")]
    headers := [("Accept", "application/json")] }

/-- Go `restClient.GetIssue`. -/
def restClient.GetIssue (c : restClient) (rfc3339 : String → Option Time)
    (server : Request → Nat → Exchange) (key : String) : Except ClientError Issue :=
  handleResponse "get issue failed" (unmarshal (Issue.store rfc3339) Issue.zero)
    (c.get server (issueRequest c.config key))

/-- The request `restClient.GetCurrentUser` builds. -/
def currentUserRequest (cfg : JiraConfig) : Request :=
  { url := cfg.Domain ++ "/rest/api/3/myself"
    basicAuthUser := cfg.Email
    basicAuthPassword := cfg.Token
    queryParams := []
    headers := [("Accept", "application/json")] }

/-- Go `restClient.GetCurrentUser`. -/
def restClient.GetCurrentUser (c : restClient) (server : Request → Nat → Exchange) :
    Except ClientError User :=
  handleResponse "get user failed" (unmarshal User.store User.zero)
    (c.get server (currentUserRequest c.config))

/-- Go `restClient.ValidateCredentials`: the error of `GetCurrentUser`, if any. -/
def restClient.ValidateCredentials (c : restClient) (server : Request → Nat → Exchange) :
    Option ClientError :=
  match c.GetCurrentUser server with
  | .error e => some e
  | .ok _ => none

/-! ## `internal/config/config.go`: validation -/

/-- Go `config.UIConfig`. -/
structure UIConfig where
  Colors : Bool
  Icons : Bool
  Compact : Bool
  deriving Repr, DecidableEq

/-- Go `config.Config`. -/
structure Config where
  Jira : JiraConfig
  UI : UIConfig
  Debug : Bool
  LogLevel : String
  deriving Repr, DecidableEq

/-- Go `Config.Validate`: the returned error's text, `none` for a nil error. -/
def Config.Validate (c : Config) : Option String :=
  if c.Jira.Domain == "" then some "jira domain is required"
  else if c.Jira.Email == "" then some "jira email is required"
  else if c.Jira.Token == "" then some "jira token is required"
  else none

/-- The tail of Go `config.New`, after viper has produced `unmarshalled` (the
outcome of `viper.Unmarshal(cfg)`): an unmarshalling error is wrapped, then
the configuration is validated. -/
def Config.New (unmarshalled : Except String Config) : Except String Config :=
  match unmarshalled with
  | .error e => .error ("failed to unmarshal config: " ++ e)
  | .ok cfg =>
    match cfg.Validate with
    | some e => .error ("configuration validation failed: " ++ e)
    | none => .ok cfg

/-! ## `time.Parse` and `Time.Format` for the layouts of `renderTable` -/

/-- Go `time.isDigit` on one character. -/
def isDigit (c : Char) : Bool :=
  decide (48 ≤ c.toNat) && decide (c.toNat ≤ 57)

/-- Value of a decimal digit character. -/
def digitVal (c : Char) : Nat :=
  c.toNat - 48

/-- Go `time.getnum`: one or two leading digits; with `fixed` exactly two. -/
def getnum (s : List Char) (fixed : Bool) : Option (Nat × List Char) :=
  match s with
  | [] => none
  | c0 :: rest0 =>
    if isDigit c0 then
      match rest0 with
      | [] => if fixed then none else some (digitVal c0, rest0)
      | c1 :: rest1 =>
        if isDigit c1 then some (digitVal c0 * 10 + digitVal c1, rest1)
        else if fixed then none
        else some (digitVal c0, rest0)
    else none

/-- Go `time.leadingInt`: consume leading digits (its overflow guard cannot
trigger on the inputs of at most four characters it gets here). -/
def leadingInt : List Char → Nat → Nat × List Char
  | [], acc => (acc, [])
  | c :: rest, acc =>
    if isDigit c then leadingInt rest (acc * 10 + digitVal c) else (acc, c :: rest)

/-- Go `time.atoi`: an optional sign, then digits up to the end. -/
def atoi (s : List Char) : Option Int :=
  let signed : Bool × List Char :=
    match s with
    | c :: rest => if c = '-' then (true, rest) else if c = '+' then (false, rest) else (false, s)
    | [] => (false, s)
  match leadingInt signed.2 0 with
  | (q, []) => some (if signed.1 then -(q : Int) else (q : Int))
  | _ => none

/-- Go `time.skip` for a one-character literal of the layout that is not a
space: the value must start with it. -/
def skip (lit : Char) : List Char → Option (List Char)
  | c :: rest => if c = lit then some rest else none
  | [] => none

/-- Go `time.isLeap`. -/
def isLeap (year : Int) : Bool :=
  decide (year % 4 = 0) && (decide (year % 100 ≠ 0) || decide (year % 400 = 0))

/-- Go `time.daysIn`. -/
def daysIn (month : Nat) (year : Int) : Nat :=
  if month = 2 then (if isLeap year then 29 else 28)
  else if month = 4 ∨ month = 6 ∨ month = 9 ∨ month = 11 then 30
  else 31

/-- The chunk `2006` of the layout: at least four characters remain, the first
is a digit, and the first four are read by `atoi`. -/
def parseYear (v : List Char) : Option (Int × List Char) :=
  match v.head? with
  | none => none
  | some c0 =>
    if decide (4 ≤ v.length) && isDigit c0 then
      (atoi (v.take 4)).map fun year => (year, v.drop 4)
    else none

/-- The chunk `.000` of the layout (Go `parseNanoseconds` with four bytes): at
least four characters remain, the first is a comma or a period, and the next
three are read by `atoi` to a non-negative number of milliseconds.  Returns
the nanoseconds. -/
def parseFraction (v : List Char) : Option (Nat × List Char) :=
  if v.length < 4 then none
  else
    match v.head? with
    | none => none
    | some p =>
      if p = '.' ∨ p = ',' then
        match atoi ((v.drop 1).take 3) with
        | none => none
        | some ns => if ns < 0 then none else some (ns.toNat * 1000000, v.drop 4)
      else none

/-- The chunk `-0700` of the layout: at least five characters remain; two
two-digit numbers follow the sign; hours over 24 or minutes over 60 are out of
range; the sign must be `+` or `-`.  Returns the offset in seconds. -/
def parseZone (v : List Char) : Option (Int × List Char) :=
  if v.length < 5 then none
  else
    match v.head?, getnum ((v.drop 1).take 2) true, getnum ((v.drop 3).take 2) true with
    | some sign, some (hr, _), some (mm, _) =>
      if 24 < hr ∨ 60 < mm then none
      else if sign = '+' then some ((((hr * 60 + mm) * 60 : Nat) : Int), v.drop 5)
      else if sign = '-' then some (-(((hr * 60 + mm) * 60 : Nat) : Int), v.drop 5)
      else none
    | _, _, _ => none

/-- The chunks `2006-01-02` of the layout: year, `-`, two-digit month in
1..12, `-`, two-digit day (its range is checked at the end of parsing). -/
def parseDate (v : List Char) : Option (Int × Nat × Nat × List Char) :=
  match parseYear v with
  | none => none
  | some (year, v) =>
    match skip '-' v with
    | none => none
    | some v =>
      match getnum v true with
      | none => none
      | some (month, v) =>
        if month = 0 ∨ 12 < month then none
        else
          match skip '-' v with
          | none => none
          | some v =>
            match getnum v true with
            | none => none
            | some (day, v) => some (year, month, day, v)

/-- The chunks `15:04:05` of the layout: hour of one or two digits below 24,
`:`, two-digit minute below 60, `:`, two-digit second below 60. -/
def parseClock (v : List Char) : Option (Nat × Nat × Nat × List Char) :=
  match getnum v false with
  | none => none
  | some (hour, v) =>
    if 24 ≤ hour then none
    else
      match skip ':' v with
      | none => none
      | some v =>
        match getnum v true with
        | none => none
        | some (minute, v) =>
          if 60 ≤ minute then none
          else
            match skip ':' v with
            | none => none
            | some v =>
              match getnum v true with
              | none => none
              | some (second, v) =>
                if 60 ≤ second then none else some (hour, minute, second, v)

/-- Go `time.Parse("2006-01-02T15:04:05.000-0700", value)`: the chunks of the
layout are consumed in turn (four-digit year, two-digit month and day, `T`,
hour of one or two digits, two-digit minute and second, a comma or period with
three fraction digits, a sign with a four-digit offset), nothing may follow,
and the day must exist in its month.  `none` when Go returns an error. -/
def parseUpdated (value : String) : Option Time :=
  match parseDate value.toList with
  | none => none
  | some (year, month, day, v) =>
    match skip 'T' v with
    | none => none
    | some v =>
      match parseClock v with
      | none => none
      | some (hour, minute, second, v) =>
        match parseFraction v with
        | none => none
        | some (nanosecond, v) =>
          match parseZone v with
          | none => none
          | some (zoneOffset, v) =>
            if v ≠ [] then none
            else if day < 1 ∨ daysIn month year < day then none
            else
              some
                { year := year, month := month, day := day, hour := hour,
                  minute := minute, second := second, nanosecond := nanosecond,
                  zoneOffset := zoneOffset }

/-- Go `time.appendInt(b, x, 2)` for a non-negative `x`: the decimal digits of
`x`, padded with a zero to two places. -/
def appendInt2 (x : Nat) : List Char :=
  if x < 10 then '0' :: (Nat.repr x).toList else (Nat.repr x).toList

/-- Go `t.Format("15:04 02/01")`: hour, minute, day and month of the time in
its own location, two places each. -/
def Time.Format (t : Time) : String :=
  String.mk (appendInt2 t.hour ++ [':'] ++ appendInt2 t.minute ++ [' '] ++
    appendInt2 t.day ++ ['/'] ++ appendInt2 t.month)

/-- Specification side: the number written by two digit characters. -/
def digits2 (c0 c1 : Char) : Nat :=
  digitVal c0 * 10 + digitVal c1

/-- Specification side: the number written by four digit characters. -/
def digits4 (c0 c1 c2 c3 : Char) : Nat :=
  ((digitVal c0 * 10 + digitVal c1) * 10 + digitVal c2) * 10 + digitVal c3

/-! ## `configs/configs.go` and `cmd/app/main.go`: the legacy notification path -/

namespace App

/-- Go `configs.JiraConfigs`. -/
structure JiraConfigs where
  Domain : String
  Email : String
  Token : String
  deriving Repr, DecidableEq

/-- Go `main.Status`. -/
structure Status where
  Name : String
  deriving Repr, DecidableEq

/-- Go `main.IssueFields`; `Updated` stays the ISO 8601 string of the wire. -/
structure IssueFields where
  Summary : String
  Status : Status
  Updated : String
  deriving Repr, DecidableEq

/-- Go `main.Issue`. -/
structure Issue where
  Key : String
  Fields : IssueFields
  deriving Repr, DecidableEq

/-- Go `main.JiraResponse`. -/
structure JiraResponse where
  Issues : List Issue
  deriving Repr, DecidableEq

/-- Store a member value into the field of a `Status` (tag `name`). -/
def Status.setField (i : Nat) (v : Status) (j : JSON) : Option Status :=
  match i with
  | 0 => (storeString v.Name j).map fun x => { v with Name := x }
  | _ => some v

/-- Store a JSON value into a `Status`. -/
def Status.store : Status → JSON → Option Status :=
  storeStruct ["name"] Status.setField

/-- Store a member value into the field of an `IssueFields` (tags `summary`,
`status`, `updated`). -/
def IssueFields.setField (i : Nat) (v : IssueFields) (j : JSON) : Option IssueFields :=
  match i with
  | 0 => (storeString v.Summary j).map fun x => { v with Summary := x }
  | 1 => (Status.store v.Status j).map fun x => { v with Status := x }
  | 2 => (storeString v.Updated j).map fun x => { v with Updated := x }
  | _ => some v

/-- Store a JSON value into an `IssueFields`. -/
def IssueFields.store : IssueFields → JSON → Option IssueFields :=
  storeStruct ["summary", "status", "updated"] IssueFields.setField

/-- Store a member value into the field of an `Issue` (tags `key`, `fields`). -/
def Issue.setField (i : Nat) (v : Issue) (j : JSON) : Option Issue :=
  match i with
  | 0 => (storeString v.Key j).map fun x => { v with Key := x }
  | 1 => (IssueFields.store v.Fields j).map fun x => { v with Fields := x }
  | _ => some v

/-- Store a JSON value into an `Issue`. -/
def Issue.store : Issue → JSON → Option Issue :=
  storeStruct ["key", "fields"] Issue.setField

/-- Zero value of `Issue`. -/
def Issue.zero : Issue := ⟨"", ⟨"", ⟨""⟩, ""⟩⟩

/-- A `JiraResponse` under decoding: the value, and what the backing array of
its `Issues` slice holds past the slice's length. -/
structure JiraResponse.Decoding where
  value : JiraResponse
  spare : List Issue

/-- Store a member value into the field of a `JiraResponse` under decoding
(tag `issues`). -/
def JiraResponse.setField (i : Nat) (v : JiraResponse.Decoding) (j : JSON) :
    Option JiraResponse.Decoding :=
  match i with
  | 0 => (storeSlice Issue.store Issue.zero ⟨v.value.Issues, v.spare⟩ j).map fun x =>
      { value := { v.value with Issues := x.elems }, spare := x.spare }
  | _ => some v

/-- Store a JSON value into a `JiraResponse` under decoding. -/
def JiraResponse.storeInto : JiraResponse.Decoding → JSON → Option JiraResponse.Decoding :=
  storeStruct ["issues"] JiraResponse.setField

/-- Store a JSON value into a `JiraResponse` whose `Issues` slice has no spare
capacity (as the fresh `var data JiraResponse` of `main`). -/
def JiraResponse.store (cur : JiraResponse) (j : JSON) : Option JiraResponse :=
  (JiraResponse.storeInto ⟨cur, []⟩ j).map fun t => t.value

/-- The table writer's state: the header set by `table.Header` and the rows
added by `table.Append`, in order.  `table.Render` prints this state. -/
structure Table where
  header : List String
  rows : List (List String)
  deriving Repr, DecidableEq

/-- The `statusColor` chain of `renderTable`: the glyph put before the status
name. -/
def statusColor (name : String) : String :=
  if name == "Done" || name == "Resolved" then "✅ "
  else if name == "In Progress" then "🔥 "
  else "todo "

/-- The time cell of `renderTable`: `parsedTime, _ := time.Parse(...)` drops
the error, so a failed parse leaves the zero `Time` that `time.Parse` returns
with an error; then `parsedTime.Format("15:04 02/01")`. -/
def timeStr (updated : String) : String :=
  ((parseUpdated updated).getD Time.zero).Format

/-- The body of the loop of `renderTable`: the row appended for one issue. -/
def row (jiraConfigs : JiraConfigs) (issue : Issue) : List String :=
  let link := jiraConfigs.Domain ++ "/browse/" ++ issue.Key
  [ issue.Key,
    statusColor issue.Fields.Status.Name ++ issue.Fields.Status.Name,
    timeStr issue.Fields.Updated,
    issue.Fields.Summary,
    link ]

/-- Go `renderTable`: the header, then one `table.Append(row)` per issue in
order; the result is the table handed to `table.Render()`. -/
def renderTable (jiraConfigs : JiraConfigs) (issues : List Issue) : Table :=
  issues.foldl (fun table issue => { table with rows := table.rows ++ [row jiraConfigs issue] })
    { header := ["Key", "Status", "Updated", "Summary", "Link"], rows := [] }

/-- The request `main` builds with `http.NewRequest` and then completes. -/
structure HttpRequest where
  method : String
  url : String
  query : List (String × String)
  basicAuthUser : String
  basicAuthPassword : String
  headers : List (String × String)
  deriving Repr, DecidableEq

/-- What `client.Do(req)` returns on success. -/
structure HttpResponse where
  StatusCode : Int
  Status : String
  Body : Option JSON

/-- The observable steps of `main`, in order. -/
inductive Event where
  | print (text : String)
  | printDecodeError
  | newRequest (method : String) (url : String)
  | send (req : HttpRequest)
  | render (table : Table)
  | exit (code : Int)
  | panicked (err : String)

/-- The surroundings of `main`: the outcome of `appConfigs.Load()` followed by
`GetJiraConfigs()`, the error (if any) of `http.NewRequest` for a URL, and the
outcome of `client.Do`. -/
structure Env where
  load : Except String JiraConfigs
  newRequestError : String → Option String
  send : HttpRequest → Except String HttpResponse

/-- Go `main` of `cmd/app`, as the list of its observable steps.
`printDecodeError` stands for the `Printf` of the decoding error, whose text
is not modelled. -/
def main (env : Env) : List Event :=
  match env.load with
  | .error e => [.panicked e]
  | .ok jiraConfigs =>
    if jiraConfigs.Domain == "" || jiraConfigs.Email == "" || jiraConfigs.Token == "" then
      [ .print "❌ Lỗi: Thiếu biến môi trường.\n",
        .print "Vui lòng set: JIRA_DOMAIN, JIRA_EMAIL, JIRA_TOKEN\n",
        .exit 1 ]
    else
      let apiURL := jiraConfigs.Domain ++ "/rest/api/3/search"
      .newRequest "GET" apiURL ::
      match env.newRequestError apiURL with
      | some e => [.panicked e]
      | none =>
        let req : HttpRequest :=
          { method := "GET"
            url := apiURL
            query :=
              [ ("jql", "updated >= -24h AND (assignee = currentUser() OR watcher = currentUser() OR text ~ currentUser()) ORDER BY updated DESC"),
                ("fields", "summary,status,updated"),
                ("maxResults", "10") ]
            basicAuthUser := jiraConfigs.Email
            basicAuthPassword := jiraConfigs.Token
            headers := [("Accept", "application/json"), ("Content-Type", "application/json")] }
        .send req ::
        match env.send req with
        | .error e => [.print ("❌ Lỗi kết nối: " ++ e ++ "\n"), .exit 1]
        | .ok resp =>
          if resp.StatusCode ≠ 200 then
            [.print ("❌ Lỗi API: " ++ resp.Status ++ " (Check lại Token/Email)\n"), .exit 1]
          else
            match unmarshal JiraResponse.store ⟨[]⟩ resp.Body with
            | none => [.printDecodeError, .exit 1]
            | some data =>
              if data.Issues.length = 0 then
                [.print "✅ Không có thông báo mới nào trong 24h qua!\n"]
              else
                [.render (renderTable jiraConfigs data.Issues)]

/-- An event that builds an HTTP request or sends one. -/
def Event.isRequest : Event → Bool
  | .newRequest _ _ => true
  | .send _ => true
  | _ => false

/-- An event that hands a table to the table renderer. -/
def Event.isRender : Event → Bool
  | .render _ => true
  | _ => false

end App

end Jirar

/-! # Theorems -/

namespace Jirar

/-! ## Search options (C1, C2, C3) -/

/-- The option loop started from any options value: `Limit` ends as the last
`WithLimit` argument, or stays as it was. -/
theorem foldl_Limit (calls : List OptionCall) (o : SearchOptions) :
    ((calls.map OptionCall.toOption).foldl (fun options opt => opt options) o).Limit
      = (specLastLimit calls).getD o.Limit := by
  induction calls generalizing o with
  | nil => rfl
  | cons c rest ih =>
    simp only [List.map_cons, List.foldl_cons, ih, specLastLimit]
    cases specLastLimit rest with
    | some n => rfl
    | none => cases c <;> rfl

/-- The option loop started from any options value: `StartAt` ends as the last
`WithStartAt` argument, or stays as it was. -/
theorem foldl_StartAt (calls : List OptionCall) (o : SearchOptions) :
    ((calls.map OptionCall.toOption).foldl (fun options opt => opt options) o).StartAt
      = (specLastStartAt calls).getD o.StartAt := by
  induction calls generalizing o with
  | nil => rfl
  | cons c rest ih =>
    simp only [List.map_cons, List.foldl_cons, ih, specLastStartAt]
    cases specLastStartAt rest with
    | some n => rfl
    | none => cases c <;> rfl

/-- The option loop started from any options value appends every `WithFields`
argument to `Fields`, in order. -/
theorem foldl_Fields (calls : List OptionCall) (o : SearchOptions) :
    ((calls.map OptionCall.toOption).foldl (fun options opt => opt options) o).Fields
      = o.Fields ++ specAllFields calls := by
  induction calls generalizing o with
  | nil => simp [specAllFields]
  | cons c rest ih =>
    simp only [List.map_cons, List.foldl_cons, ih]
    cases c <;> simp [specAllFields, OptionCall.toOption, WithLimit, WithStartAt, WithFields,
      WithExpand]

/-- The option loop started from any options value appends every `WithExpand`
argument to `Expand`, in order. -/
theorem foldl_Expand (calls : List OptionCall) (o : SearchOptions) :
    ((calls.map OptionCall.toOption).foldl (fun options opt => opt options) o).Expand
      = o.Expand ++ specAllExpand calls := by
  induction calls generalizing o with
  | nil => simp [specAllExpand]
  | cons c rest ih =>
    simp only [List.map_cons, List.foldl_cons, ih]
    cases c <;> simp [specAllExpand, OptionCall.toOption, WithLimit, WithStartAt, WithFields,
      WithExpand]

/-- Removing the `WithFields` and `WithExpand` calls from a list does not
change its last `WithLimit`. -/
theorem specLastLimit_filter (calls : List OptionCall) :
    specLastLimit (calls.filter OptionCall.isScalar) = specLastLimit calls := by
  induction calls with
  | nil => rfl
  | cons c rest ih =>
    cases c <;> simp [List.filter, OptionCall.isScalar, specLastLimit, ih] <;>
      cases specLastLimit rest <;> rfl

/-- Removing the `WithFields` and `WithExpand` calls from a list does not
change its last `WithStartAt`. -/
theorem specLastStartAt_filter (calls : List OptionCall) :
    specLastStartAt (calls.filter OptionCall.isScalar) = specLastStartAt calls := by
  induction calls with
  | nil => rfl
  | cons c rest ih =>
    cases c <;> simp [List.filter, OptionCall.isScalar, specLastStartAt, ih] <;>
      cases specLastStartAt rest <;> rfl

/-- Reading of `specLastLimit`: in `front ++ WithLimit n :: back` with no
`WithLimit` in `back`, it is `n`. -/
theorem specLastLimit_split (front back : List OptionCall) (n : Int)
    (hback : ∀ m, OptionCall.withLimit m ∉ back) :
    specLastLimit (front ++ OptionCall.withLimit n :: back) = some n := by
  have hnone : specLastLimit back = none := by
    induction back with
    | nil => rfl
    | cons c rest ih =>
      have hrest : ∀ m, OptionCall.withLimit m ∉ rest := fun m hm =>
        hback m (List.mem_cons_of_mem _ hm)
      simp only [specLastLimit, ih hrest]
      cases c with
      | withLimit m => exact absurd (List.mem_cons_self _ _) (hback m)
      | _ => rfl
  induction front with
  | nil => simp [specLastLimit, hnone]
  | cons c rest ih => simp [specLastLimit, ih]

/-- Reading of `specLastStartAt`: in `front ++ WithStartAt n :: back` with no
`WithStartAt` in `back`, it is `n`. -/
theorem specLastStartAt_split (front back : List OptionCall) (n : Int)
    (hback : ∀ m, OptionCall.withStartAt m ∉ back) :
    specLastStartAt (front ++ OptionCall.withStartAt n :: back) = some n := by
  have hnone : specLastStartAt back = none := by
    induction back with
    | nil => rfl
    | cons c rest ih =>
      have hrest : ∀ m, OptionCall.withStartAt m ∉ rest := fun m hm =>
        hback m (List.mem_cons_of_mem _ hm)
      simp only [specLastStartAt, ih hrest]
      cases c with
      | withStartAt m => exact absurd (List.mem_cons_self _ _) (hback m)
      | _ => rfl
  induction front with
  | nil => simp [specLastStartAt, hnone]
  | cons c rest ih => simp [specLastStartAt, ih]

/-- C1: for every list of search options, the Limit used for the request
(the composed options' `Limit`, sent as `maxResults`) is the argument of the
last `WithLimit` of the list, 50 when there is none, and the StartAt used
(sent as `startAt`) is the argument of the last `WithStartAt`, 0 when there is
none; dropping the `WithFields` and `WithExpand` options from the list changes
neither value. -/
theorem C1_last_limit_and_startAt_win (cfg : JiraConfig) (jql : String)
    (calls : List OptionCall) :
    (composedOptions calls).Limit = (specLastLimit calls).getD 50 ∧
    (composedOptions calls).StartAt = (specLastStartAt calls).getD 0 ∧
    (searchRequest cfg jql (calls.map OptionCall.toOption)).queryParam "maxResults"
      = some (formatInt ((specLastLimit calls).getD 50)) ∧
    (searchRequest cfg jql (calls.map OptionCall.toOption)).queryParam "startAt"
      = some (formatInt ((specLastStartAt calls).getD 0)) ∧
    (composedOptions (calls.filter OptionCall.isScalar)).Limit = (composedOptions calls).Limit ∧
    (composedOptions (calls.filter OptionCall.isScalar)).StartAt
      = (composedOptions calls).StartAt := by
  have hL : ∀ cs, (composedOptions cs).Limit = (specLastLimit cs).getD 50 := fun cs =>
    foldl_Limit cs defaultSearchOptions
  have hS : ∀ cs, (composedOptions cs).StartAt = (specLastStartAt cs).getD 0 := fun cs =>
    foldl_StartAt cs defaultSearchOptions
  refine ⟨hL calls, hS calls, ?_, ?_, ?_, ?_⟩
  · have h := hL calls
    unfold composedOptions at h
    simp [searchRequest, Request.queryParam, List.find?, h]
  · have h := hS calls
    unfold composedOptions at h
    simp [searchRequest, Request.queryParam, List.find?, h]
  · rw [hL, hL, specLastLimit_filter]
  · rw [hS, hS, specLastStartAt_filter]

/-- C2: for every list of search options applied in order to the default
options, the final `Fields` list is the seven default fields followed by the
arguments of every `WithFields` in application order (duplicates kept), and
the final `Expand` list is the arguments of every `WithExpand` in application
order. -/
theorem C2_fields_and_expand_append (calls : List OptionCall) :
    (composedOptions calls).Fields
      = ["summary", "status", "priority", "assignee", "updated", "created", "project"]
          ++ specAllFields calls ∧
    (composedOptions calls).Expand = specAllExpand calls := by
  constructor
  · exact foldl_Fields calls defaultSearchOptions
  · have h := foldl_Expand calls defaultSearchOptions
    simpa [defaultSearchOptions] using h

/-- C3 (the code at a failing input): with the single option
`WithFields("description")` the composed `Fields` list joins to a string that
ends in `,description`, but the `fields` query parameter of the request is the
fixed default string; `maxResults` and `startAt` are the decimal renderings of
the composed `Limit` and `StartAt`. -/
theorem C3_fields_parameter_ignores_WithFields :
    String.intercalate "," (composedOptions [OptionCall.withFields ["description"]]).Fields
      = "summary,status,priority,assignee,updated,created,project,description" ∧
    (searchRequest ⟨"https://example.atlassian.net", "me@example.com", "secret"⟩ "project = X"
        [WithFields ["description"]]).queryParam "fields"
      = some "summary,status,priority,assignee,updated,created,project" ∧
    (searchRequest ⟨"https://example.atlassian.net", "me@example.com", "secret"⟩ "project = X"
        [WithFields ["description"]]).queryParam "maxResults" = some "50" ∧
    (searchRequest ⟨"https://example.atlassian.net", "me@example.com", "secret"⟩ "project = X"
        [WithFields ["description"]]).queryParam "startAt" = some "0" := by
  decide

/-! ## Retry policy and response handling (C4, C5) -/

/-- The retry loop makes at least one and at most `retriesLeft + 1` attempts. -/
theorem attemptLoop_count (retry : Exchange → Bool) (attempt : Nat → Exchange)
    (retriesLeft n : Nat) :
    n + 1 ≤ (attemptLoop retry attempt retriesLeft n).2 ∧
    (attemptLoop retry attempt retriesLeft n).2 ≤ n + retriesLeft + 1 := by
  induction retriesLeft generalizing n with
  | zero => simp [attemptLoop]
  | succ k ih =>
    unfold attemptLoop
    split
    · have h := ih (n + 1)
      omega
    · simp

/-- After `Get` returned without a transport error and with a status other
than 200, the result is the API error carrying the status, whatever the body
and whatever the decoder. -/
theorem handleResponse_status {α : Type} (context : String) (decode : Option JSON → Option α)
    (x : Exchange) (herr : x.err = none) (hs : x.StatusCode ≠ 200) :
    handleResponse context decode x
      = .error (.apiStatus ("API request failed with status " ++ formatInt x.StatusCode)) := by
  simp [handleResponse, herr, hs]

/-- After `Get` returned without a transport error and with status 200, a body
that decodes to `v` gives `v` and no error. -/
theorem handleResponse_ok {α : Type} (context : String) (decode : Option JSON → Option α)
    (x : Exchange) (v : α) (herr : x.err = none) (hs : x.StatusCode = 200)
    (hv : decode x.Body = some v) :
    handleResponse context decode x = .ok v := by
  simp [handleResponse, herr, hs, hv]

/-- C4: under the retry policy installed by `NewClient` (retry count 3,
condition "status >= 500 or transport error"), a `SearchIssues` call whose
every attempt answers 503 is attempted 1 + 3 times and then returns the API
error carrying 503 (also when only the first four attempts answer 503,
whatever a fifth would answer; and the fourth attempt is really made: when the
first three answer 503 and the fourth 200, the call returns what the 200
answer gives, after 4 attempts); a call whose first attempt answers a status
`s` in [400,499] is attempted exactly once and returns the API error carrying
`s`, whatever later attempts would have answered. -/
theorem C4_retry_on_503_not_on_4xx (cfg : JiraConfig) (rfc3339 : String → Option Time)
    (jql : String) (opts : List SearchOption) (bodies : Nat → Option JSON)
    (later : Nat → Exchange) (s : Int) (hs : 400 ≤ s ∧ s ≤ 499) :
    ((NewClient cfg).client.execute (fun n => ⟨503, bodies n, none⟩)).2 = 1 + 3 ∧
    (NewClient cfg).SearchIssues rfc3339 (fun _ n => ⟨503, bodies n, none⟩) jql opts
      = .error (.apiStatus "API request failed with status 503") ∧
    ((NewClient cfg).client.execute
        (fun n => if n = 0 then ⟨s, bodies 0, none⟩ else later n)).2 = 1 ∧
    (NewClient cfg).SearchIssues rfc3339
        (fun _ n => if n = 0 then ⟨s, bodies 0, none⟩ else later n) jql opts
      = .error (.apiStatus ("API request failed with status " ++ formatInt s)) ∧
    (NewClient cfg).SearchIssuesCounted rfc3339 (fun _ n => ⟨503, bodies n, none⟩) jql opts
      = (.error (.apiStatus "API request failed with status 503"), 1 + 3) ∧
    (NewClient cfg).SearchIssuesCounted rfc3339
        (fun _ n => if n < 4 then ⟨503, bodies n, none⟩ else later n) jql opts
      = (.error (.apiStatus "API request failed with status 503"), 1 + 3) ∧
    (NewClient cfg).SearchIssuesCounted rfc3339
        (fun _ n => if n < 3 then ⟨503, bodies n, none⟩ else ⟨200, bodies n, none⟩) jql opts
      = (handleResponse "search failed"
          (unmarshal (SearchResult.store rfc3339) SearchResult.zero) ⟨200, bodies 3, none⟩,
         1 + 3) ∧
    (NewClient cfg).SearchIssuesCounted rfc3339
        (fun _ n => if n = 0 then ⟨s, bodies 0, none⟩ else later n) jql opts
      = (.error (.apiStatus ("API request failed with status " ++ formatInt s)), 1) := by
  have h500 : ¬ (500 ≤ s) := by omega
  have h200 : s ≠ 200 := by omega
  have h503 : formatInt 503 = "503" := by decide
  refine ⟨?_, ?_, ?_, ?_, ?_, ?_, ?_, ?_⟩
  · simp [NewClient, ClientSettings.execute, attemptLoop, retryCondition]
  · simp [restClient.SearchIssues, restClient.SearchIssuesCounted, restClient.getCounted,
      NewClient, ClientSettings.execute, attemptLoop, retryCondition, handleResponse, h503]
  · simp [NewClient, ClientSettings.execute, attemptLoop, retryCondition, h500]
  · simp [restClient.SearchIssues, restClient.SearchIssuesCounted, restClient.getCounted,
      NewClient, ClientSettings.execute, attemptLoop, retryCondition, handleResponse, h500,
      h200]
  · simp [restClient.SearchIssuesCounted, restClient.getCounted,
      NewClient, ClientSettings.execute, attemptLoop, retryCondition, handleResponse, h503]
  · simp [restClient.SearchIssuesCounted, restClient.getCounted,
      NewClient, ClientSettings.execute, attemptLoop, retryCondition, handleResponse, h503]
  · simp [restClient.SearchIssuesCounted, restClient.getCounted,
      NewClient, ClientSettings.execute, attemptLoop, retryCondition]
  · simp [restClient.SearchIssuesCounted, restClient.getCounted,
      NewClient, ClientSettings.execute, attemptLoop, retryCondition, handleResponse, h500,
      h200]

/-- Witness of C4 at status 404: one attempt and the API error carrying 404,
although a second attempt would have been answered with 200. -/
theorem C4_witness_404 :
    (NewClient ⟨"https://example.atlassian.net", "me@example.com", "secret"⟩).SearchIssuesCounted
        (fun _ => none) (fun _ n => if n = 0 then ⟨404, none, none⟩ else ⟨200, none, none⟩)
        "project = X" []
      = (.error (.apiStatus "API request failed with status 404"), 1) ∧
    (NewClient ⟨"https://example.atlassian.net", "me@example.com", "secret"⟩).SearchIssuesCounted
        (fun _ => none) (fun _ _ => ⟨503, none, none⟩) "project = X" []
      = (.error (.apiStatus "API request failed with status 503"), 4) :=
  have h := C4_retry_on_503_not_on_4xx
    ⟨"https://example.atlassian.net", "me@example.com", "secret"⟩ (fun _ => none) "project = X" []
    (fun _ => none) (fun _ => ⟨200, none, none⟩) 404 (by decide)
  ⟨h.2.2.2.2.2.2.2, h.2.2.2.2.1⟩

/-- C5: for each of `SearchIssues`, `GetIssue` and `GetCurrentUser`, when `Get`
returns without a transport error: a status `s` other than 200 gives no result
and the error "API request failed with status <s>", independently of the body
(the last part: for any body and any decoder); status 200 with a body that
decodes gives the decoded value and no error. -/
theorem C5_status_error_or_decoded_value (c : restClient) (rfc3339 : String → Option Time)
    (server : Request → Nat → Exchange) (jql : String) (opts : List SearchOption)
    (key : String) :
    ((c.get server (searchRequest c.config jql opts)).err = none →
      ((c.get server (searchRequest c.config jql opts)).StatusCode ≠ 200 →
        c.SearchIssues rfc3339 server jql opts
          = .error (.apiStatus ("API request failed with status " ++
              formatInt (c.get server (searchRequest c.config jql opts)).StatusCode))) ∧
      (∀ v, (c.get server (searchRequest c.config jql opts)).StatusCode = 200 →
        unmarshal (SearchResult.store rfc3339) SearchResult.zero
          (c.get server (searchRequest c.config jql opts)).Body = some v →
        c.SearchIssues rfc3339 server jql opts = .ok v)) ∧
    ((c.get server (issueRequest c.config key)).err = none →
      ((c.get server (issueRequest c.config key)).StatusCode ≠ 200 →
        c.GetIssue rfc3339 server key
          = .error (.apiStatus ("API request failed with status " ++
              formatInt (c.get server (issueRequest c.config key)).StatusCode))) ∧
      (∀ v, (c.get server (issueRequest c.config key)).StatusCode = 200 →
        unmarshal (Issue.store rfc3339) Issue.zero
          (c.get server (issueRequest c.config key)).Body = some v →
        c.GetIssue rfc3339 server key = .ok v)) ∧
    ((c.get server (currentUserRequest c.config)).err = none →
      ((c.get server (currentUserRequest c.config)).StatusCode ≠ 200 →
        c.GetCurrentUser server
          = .error (.apiStatus ("API request failed with status " ++
              formatInt (c.get server (currentUserRequest c.config)).StatusCode))) ∧
      (∀ v, (c.get server (currentUserRequest c.config)).StatusCode = 200 →
        unmarshal User.store User.zero (c.get server (currentUserRequest c.config)).Body
          = some v →
        c.GetCurrentUser server = .ok v)) ∧
    (∀ (α : Type) (context : String) (decode : Option JSON → Option α) (s : Int)
        (body : Option JSON), s ≠ 200 →
      handleResponse context decode ⟨s, body, none⟩
        = .error (.apiStatus ("API request failed with status " ++ formatInt s))) := by
  refine ⟨fun herr => ⟨fun hs => ?_, fun v hs hv => ?_⟩,
    fun herr => ⟨fun hs => ?_, fun v hs hv => ?_⟩,
    fun herr => ⟨fun hs => ?_, fun v hs hv => ?_⟩, ?_⟩
  · exact handleResponse_status _ _ _ herr hs
  · exact handleResponse_ok _ _ _ v herr hs hv
  · exact handleResponse_status _ _ _ herr hs
  · exact handleResponse_ok _ _ _ v herr hs hv
  · exact handleResponse_status _ _ _ herr hs
  · exact handleResponse_ok _ _ _ v herr hs hv
  · intro α context decode s body hs
    exact handleResponse_status context decode ⟨s, body, none⟩ rfl hs

/-- Witness of C5: a 404 answer to `GetCurrentUser` gives the API error
carrying 404, and a 200 answer with a user object gives that user. -/
theorem C5_witness :
    (NewClient ⟨"https://example.atlassian.net", "me@example.com", "secret"⟩).GetCurrentUser
        (fun _ _ => ⟨404, some (.obj [("displayName", .str "Ann")]), none⟩)
      = .error (.apiStatus "API request failed with status 404") ∧
    (NewClient ⟨"https://example.atlassian.net", "me@example.com", "secret"⟩).GetCurrentUser
        (fun _ _ => ⟨200, some (.obj [("displayName", .str "Ann")]), none⟩)
      = .ok ⟨"", "Ann", "", false⟩ :=
  ⟨((C5_status_error_or_decoded_value
      (NewClient ⟨"https://example.atlassian.net", "me@example.com", "secret"⟩) (fun _ => none)
      (fun _ _ => ⟨404, some (.obj [("displayName", .str "Ann")]), none⟩) "" [] "").2.2.1
      rfl).1 (by decide),
   ((C5_status_error_or_decoded_value
      (NewClient ⟨"https://example.atlassian.net", "me@example.com", "secret"⟩) (fun _ => none)
      (fun _ _ => ⟨200, some (.obj [("displayName", .str "Ann")]), none⟩) "" [] "").2.2.1
      rfl).2 ⟨"", "Ann", "", false⟩ (by decide) (by decide)⟩

/-! ## Decoding a search response (C6) -/

/-- A position found by `indexWhere` lies within the list. -/
theorem indexWhere_lt (p : String → Bool) (names : List String) (i : Nat)
    (h : indexWhere p names = some i) : i < names.length := by
  induction names generalizing i with
  | nil => simp [indexWhere] at h
  | cons n ns ih =>
    unfold indexWhere at h
    split at h
    · simp at h
      subst h
      simp
    · cases hrest : indexWhere p ns with
      | none => simp [hrest] at h
      | some j =>
        simp [hrest] at h
        subst h
        have := ih j hrest
        simp
        omega

/-- A field selected by `fieldIndex` is one of the struct's fields. -/
theorem fieldIndex_lt (names : List String) (key : String) (i : Nat)
    (h : fieldIndex names key = some i) : i < names.length := by
  unfold fieldIndex at h
  split at h
  · rename_i j hj
    simp at h
    subst h
    exact indexWhere_lt _ _ _ hj
  · exact indexWhere_lt _ _ _ h

/-- Members that select none of `startAt`, `maxResults`, `total` with a wrong
kind of value, and never select `issues`, are stored without error and leave
`Issues` as it was. -/
theorem SearchResult_members_keep_Issues (rfc3339 : String → Option Time)
    (members : List (String × JSON)) (cur : SearchResult.Decoding)
    (h1 : ∀ m ∈ members, fieldIndex SearchResult.names m.1 ≠ some 3)
    (h2 : ∀ m ∈ members, fieldIndex SearchResult.names m.1 ≠ none →
      m.2 = JSON.null ∨ ∃ n : Int, m.2 = JSON.int n ∧ -(2 ^ 63) ≤ n ∧ n < 2 ^ 63) :
    ∃ r, SearchResult.storeInto rfc3339 cur (JSON.obj members) = some r ∧
      r.value.Issues = cur.value.Issues := by
  unfold SearchResult.storeInto storeStruct
  simp only
  induction members generalizing cur with
  | nil => exact ⟨cur, rfl, rfl⟩
  | cons m rest ih =>
    have hrest1 : ∀ x ∈ rest, fieldIndex SearchResult.names x.1 ≠ some 3 := fun x hx =>
      h1 x (List.mem_cons_of_mem _ hx)
    have hrest2 : ∀ x ∈ rest, fieldIndex SearchResult.names x.1 ≠ none →
        x.2 = JSON.null ∨ ∃ n : Int, x.2 = JSON.int n ∧ -(2 ^ 63) ≤ n ∧ n < 2 ^ 63 :=
      fun x hx => h2 x (List.mem_cons_of_mem _ hx)
    have hm1 := h1 m (List.mem_cons_self _ _)
    have hm2 := h2 m (List.mem_cons_self _ _)
    rw [List.foldlM_cons]
    cases hidx : fieldIndex SearchResult.names m.1 with
    | none =>
      simp only [Option.bind_eq_bind, Option.some_bind]
      exact ih cur hrest1 hrest2
    | some i =>
      have hlt := fieldIndex_lt _ _ _ hidx
      have hi3 : i ≠ 3 := fun h => hm1 (by rw [hidx, h])
      have hval := hm2 (by rw [hidx]; simp)
      have hi : i = 0 ∨ i = 1 ∨ i = 2 := by
        simp [SearchResult.names] at hlt
        omega
      have hstep : ∃ r, SearchResult.setField rfc3339 i cur m.2 = some r ∧
          r.value.Issues = cur.value.Issues := by
        rcases hval with hnull | ⟨n, hn, hlo, hhi⟩
        · rcases hi with h | h | h <;> subst h <;>
            simp [SearchResult.setField, hnull, storeInt]
        · have hst : ∀ c : Int, storeInt c (JSON.int n) = some n := fun c => by
            unfold storeInt
            exact if_pos ⟨hlo, hhi⟩
          rcases hi with h | h | h <;> subst h <;>
            simp [SearchResult.setField, hn, hst]
      obtain ⟨r, hr, hrI⟩ := hstep
      simp only [hr, Option.bind_eq_bind, Option.some_bind]
      obtain ⟨r2, hr2, hr2I⟩ := ih r hrest1 hrest2
      exact ⟨r2, hr2, by rw [hr2I, hrI]⟩

/-- Storing a member that selects a field other than `assignee` leaves the
`Assignee` of a `Fields` value as it was. -/
theorem Fields_setField_keeps_Assignee (rfc3339 : String → Option Time) (i : Nat)
    (v f : Fields) (j : JSON) (hi : i ≠ 4) (h : Fields.setField rfc3339 i v j = some f) :
    f.Assignee = v.Assignee := by
  unfold Fields.setField at h
  split at h <;> first
    | exact absurd rfl hi
    | (simp only [Option.map_eq_some'] at h
       obtain ⟨x, _, hx⟩ := h
       rw [← hx])
    | (simp only [Option.some.injEq] at h
       rw [← h])

/-- In a `fields` object whose members selecting `assignee` are all `null`,
those members can be dropped without changing the decoding, and a successful
decoding leaves `Assignee` as it was. -/
theorem Fields_null_assignee (rfc3339 : String → Option Time)
    (members : List (String × JSON)) (cur : Fields)
    (h : ∀ m ∈ members, fieldIndex Fields.names m.1 = some 4 → m.2 = JSON.null) :
    Fields.store rfc3339 cur (JSON.obj members)
      = Fields.store rfc3339 cur
          (JSON.obj (members.filter fun m => fieldIndex Fields.names m.1 != some 4)) ∧
    ∀ f, Fields.store rfc3339 cur (JSON.obj members) = some f → f.Assignee = cur.Assignee := by
  unfold Fields.store storeStruct
  simp only
  induction members generalizing cur with
  | nil => simp
  | cons m rest ih =>
    have hrest : ∀ x ∈ rest, fieldIndex Fields.names x.1 = some 4 → x.2 = JSON.null :=
      fun x hx => h x (List.mem_cons_of_mem _ hx)
    have hm := h m (List.mem_cons_self _ _)
    cases hidx : fieldIndex Fields.names m.1 with
    | none =>
      have hf : (m :: rest).filter (fun m => fieldIndex Fields.names m.1 != some 4)
          = m :: rest.filter (fun m => fieldIndex Fields.names m.1 != some 4) := by
        simp [List.filter_cons, hidx]
      rw [hf, List.foldlM_cons, List.foldlM_cons]
      simp only [hidx, Option.bind_eq_bind, Option.some_bind]
      exact ih cur hrest
    | some i =>
      by_cases hi : i = 4
      · subst hi
        have hnull := hm hidx
        have hf : (m :: rest).filter (fun m => fieldIndex Fields.names m.1 != some 4)
            = rest.filter (fun m => fieldIndex Fields.names m.1 != some 4) := by
          simp [List.filter_cons, hidx]
        have hset : Fields.setField rfc3339 4 cur m.2 = some cur := by
          simp [Fields.setField, hnull, User.store, storeStruct]
        rw [hf, List.foldlM_cons]
        simp only [hidx, hset, Option.bind_eq_bind, Option.some_bind]
        exact ih cur hrest
      · have hf : (m :: rest).filter (fun m => fieldIndex Fields.names m.1 != some 4)
            = m :: rest.filter (fun m => fieldIndex Fields.names m.1 != some 4) := by
          simp [List.filter_cons, hidx, hi]
        rw [hf, List.foldlM_cons, List.foldlM_cons]
        simp only [hidx, Option.bind_eq_bind]
        cases hset : Fields.setField rfc3339 i cur m.2 with
        | none => simp
        | some v =>
          simp only [Option.some_bind]
          have hv := Fields_setField_keeps_Assignee rfc3339 i cur v m.2 hi hset
          refine ⟨(ih v hrest).1, fun f hf => ?_⟩
          rw [(ih v hrest).2 f hf, hv]

/-- An issue object with the members `key` and `fields` decodes, from the zero
issue, to the issue with that key and the decoded fields. -/
theorem Issue_store_key_fields (rfc3339 : String → Option Time) (key : String)
    (fieldMembers : List (String × JSON)) (f : Fields)
    (hf : Fields.store rfc3339 Fields.zero (JSON.obj fieldMembers) = some f) :
    Issue.store rfc3339 Issue.zero
        (JSON.obj [("key", JSON.str key), ("fields", JSON.obj fieldMembers)])
      = some ⟨key, "", "", f⟩ := by
  have h0 : fieldIndex Issue.names "key" = some 0 := by decide
  have h3 : fieldIndex Issue.names "fields" = some 3 := by decide
  have hz : Issue.zero.Fields = Fields.zero := rfl
  simp [Issue.store, storeStruct, List.foldlM, h0, h3, Issue.setField, storeString, hz, hf,
    Issue.zero]

/-- A JSON array stored into a fresh slice is decoded element by element from
the zero value, and leaves no spare capacity behind. -/
theorem storeSlice_fresh {α : Type} (decodeInto : α → JSON → Option α) (zero : α)
    (elems : List JSON) :
    storeSlice decodeInto zero ⟨[], []⟩ (JSON.arr elems)
      = (decodeOnto decodeInto zero [] elems).map fun vs => ⟨vs, []⟩ := by
  cases elems with
  | nil => simp [storeSlice, decodeOnto]
  | cons x xs => simp [storeSlice]

/-- Issue objects whose `fields` carry only `null` under `assignee` (or no
`assignee` at all), and whose other `fields` members decode, decode one by
one, keeping their keys, each with the empty user as assignee. -/
theorem decodeOnto_null_assignee (rfc3339 : String → Option Time)
    (items : List (String × List (String × JSON)))
    (hnull : ∀ it ∈ items, ∀ m ∈ it.2, fieldIndex Fields.names m.1 = some 4 → m.2 = JSON.null)
    (hrest : ∀ it ∈ items, ∃ f, Fields.store rfc3339 Fields.zero
      (JSON.obj (it.2.filter fun m => fieldIndex Fields.names m.1 != some 4)) = some f) :
    ∃ vs, decodeOnto (Issue.store rfc3339) Issue.zero []
        (items.map fun it => JSON.obj [("key", JSON.str it.1), ("fields", JSON.obj it.2)])
        = some vs ∧
      vs.map (fun i => i.Key) = items.map (fun it => it.1) ∧
      ∀ issue ∈ vs, issue.Fields.Assignee = User.zero := by
  induction items with
  | nil => exact ⟨[], rfl, rfl, by simp⟩
  | cons it rest ih =>
    obtain ⟨vs, hvs, hkeys, hzero⟩ := ih
      (fun x hx => hnull x (List.mem_cons_of_mem _ hx))
      (fun x hx => hrest x (List.mem_cons_of_mem _ hx))
    obtain ⟨f, hf⟩ := hrest it (List.mem_cons_self _ _)
    have hn := Fields_null_assignee rfc3339 it.2 Fields.zero (hnull it (List.mem_cons_self _ _))
    have hf2 : Fields.store rfc3339 Fields.zero (JSON.obj it.2) = some f := by
      rw [hn.1, hf]
    have hfa : f.Assignee = User.zero := hn.2 f hf2
    have hissue := Issue_store_key_fields rfc3339 it.1 it.2 f hf2
    refine ⟨⟨it.1, "", "", f⟩ :: vs, ?_, ?_, ?_⟩
    · simp only [List.map_cons, decodeOnto, List.headD_nil, List.tail_nil, hissue, hvs]
    · simp [hkeys]
    · intro issue hmem
      rcases List.mem_cons.mp hmem with h | h
      · rw [h]
        exact hfa
      · exact hzero issue h

/-- C6 (as stated, refuted): the 200 search response with body `{"total":0}`,
an object with no `issues` member, is not a decode error: `SearchIssues`
returns the `SearchResult` with `Total` 0 and no issues. -/
theorem C6_counterexample_total_only_body_decodes :
    (NewClient ⟨"https://example.atlassian.net", "me@example.com", "secret"⟩).SearchIssues
        (fun _ => none) (fun _ _ => ⟨200, some (.obj [("total", .int 0)]), none⟩)
        "project = X" []
      = .ok ⟨0, 0, 0, []⟩ := by
  rfl

/-- C6 (amended): for every 200 search response whose body is an object in
which no member selects the `issues` field and every member selecting
`startAt`, `maxResults` or `total` is `null` or an integer in range,
`SearchIssues` returns a `SearchResult` with an empty issue list and no
error; whereas a body whose issues carry a `null` or absent `assignee` (and
whose other `fields` members decode) decodes successfully: `SearchIssues`
returns the issues, in order, each with the empty `User` as `Assignee`.  At
the level of one `fields` object: its `null` `assignee` members do not affect
the decoding, and a successful decoding carries the empty `User`. -/
theorem C6_missing_issues_gives_empty_list (cfg : JiraConfig)
    (rfc3339 : String → Option Time) (jql : String) (opts : List SearchOption)
    (members : List (String × JSON))
    (h1 : ∀ m ∈ members, fieldIndex SearchResult.names m.1 ≠ some 3)
    (h2 : ∀ m ∈ members, fieldIndex SearchResult.names m.1 ≠ none →
      m.2 = JSON.null ∨ ∃ n : Int, m.2 = JSON.int n ∧ -(2 ^ 63) ≤ n ∧ n < 2 ^ 63) :
    (∃ r, (NewClient cfg).SearchIssues rfc3339
        (fun _ _ => ⟨200, some (.obj members), none⟩) jql opts = .ok r ∧ r.Issues = []) ∧
    (∀ fieldMembers : List (String × JSON),
      (∀ m ∈ fieldMembers, fieldIndex Fields.names m.1 = some 4 → m.2 = JSON.null) →
      Fields.store rfc3339 Fields.zero (JSON.obj fieldMembers)
        = Fields.store rfc3339 Fields.zero
            (JSON.obj (fieldMembers.filter fun m => fieldIndex Fields.names m.1 != some 4)) ∧
      ∀ f, Fields.store rfc3339 Fields.zero (JSON.obj fieldMembers) = some f →
        f.Assignee = User.zero) ∧
    (∀ items : List (String × List (String × JSON)),
      (∀ it ∈ items, ∀ m ∈ it.2, fieldIndex Fields.names m.1 = some 4 → m.2 = JSON.null) →
      (∀ it ∈ items, ∃ f, Fields.store rfc3339 Fields.zero
        (JSON.obj (it.2.filter fun m => fieldIndex Fields.names m.1 != some 4)) = some f) →
      ∃ r, (NewClient cfg).SearchIssues rfc3339
          (fun _ _ =>
            ⟨200,
              some (.obj [("issues", .arr (items.map fun it =>
                JSON.obj [("key", JSON.str it.1), ("fields", JSON.obj it.2)]))]),
              none⟩) jql opts = .ok r ∧
        r.Issues.map (fun i => i.Key) = items.map (fun it => it.1) ∧
        ∀ issue ∈ r.Issues, issue.Fields.Assignee = User.zero) := by
  refine ⟨?_, ?_, ?_⟩
  · obtain ⟨t, ht, htI⟩ :=
      SearchResult_members_keep_Issues rfc3339 members ⟨SearchResult.zero, []⟩ h1 h2
    refine ⟨t.value, ?_, htI⟩
    simp [restClient.SearchIssues, restClient.SearchIssuesCounted, restClient.getCounted,
      NewClient, ClientSettings.execute,
      attemptLoop, retryCondition, handleResponse, unmarshal, SearchResult.store, ht]
  · intro fieldMembers h
    exact Fields_null_assignee rfc3339 fieldMembers Fields.zero h
  · intro items hnull hrest
    obtain ⟨vs, hvs, hkeys, hzero⟩ := decodeOnto_null_assignee rfc3339 items hnull hrest
    have h3 : fieldIndex SearchResult.names "issues" = some 3 := by decide
    refine ⟨⟨0, 0, 0, vs⟩, ?_, hkeys, hzero⟩
    simp [restClient.SearchIssues, restClient.SearchIssuesCounted, restClient.getCounted,
      NewClient, ClientSettings.execute, attemptLoop, retryCondition, handleResponse,
      unmarshal, SearchResult.store, SearchResult.storeInto, storeStruct, List.foldlM, h3,
      SearchResult.setField, SearchResult.zero, storeSlice_fresh, hvs]

/-- Witness of C6 (amended): a body with the three counters and no `issues`
member decodes to an empty issue list; and a body with one issue whose
`assignee` is `null` and one issue without `assignee` decodes to those two
issues, each with the empty user. -/
theorem C6_witness :
    (∃ r, (NewClient ⟨"https://example.atlassian.net", "me@example.com", "secret"⟩).SearchIssues
        (fun _ => none)
        (fun _ _ =>
          ⟨200, some (.obj [("startAt", .int 0), ("maxResults", .int 50), ("total", .null)]),
            none⟩)
        "project = X" [] = .ok r ∧ r.Issues = []) ∧
    (∃ r, (NewClient ⟨"https://example.atlassian.net", "me@example.com", "secret"⟩).SearchIssues
        (fun _ => none)
        (fun _ _ =>
          ⟨200,
            some (.obj [("issues", .arr
              ([("PROJ-1", [("summary", JSON.str "Fix login"), ("assignee", JSON.null)]),
                ("PROJ-2", [("summary", JSON.str "Write docs")])].map fun it =>
                  JSON.obj [("key", JSON.str it.1), ("fields", JSON.obj it.2)]))]),
            none⟩)
        "project = X" [] = .ok r ∧
      r.Issues.map (fun i => i.Key) = ["PROJ-1", "PROJ-2"] ∧
      ∀ issue ∈ r.Issues, issue.Fields.Assignee = User.zero) :=
  have h := C6_missing_issues_gives_empty_list
    ⟨"https://example.atlassian.net", "me@example.com", "secret"⟩ (fun _ => none) "project = X" []
    [("startAt", .int 0), ("maxResults", .int 50), ("total", .null)]
    (by
      intro m hm
      simp only [List.mem_cons, List.mem_singleton, List.not_mem_nil, or_false] at hm
      rcases hm with h | h | h <;> subst h <;> decide)
    (by
      intro m hm _
      simp only [List.mem_cons, List.mem_singleton, List.not_mem_nil, or_false] at hm
      rcases hm with h | h | h <;> subst h
      · exact Or.inr ⟨0, rfl, by decide, by decide⟩
      · exact Or.inr ⟨50, rfl, by decide, by decide⟩
      · exact Or.inl rfl)
  ⟨h.1,
   h.2.2
    [("PROJ-1", [("summary", JSON.str "Fix login"), ("assignee", JSON.null)]),
      ("PROJ-2", [("summary", JSON.str "Write docs")])]
    (by
      intro it hit m hm hidx
      simp only [List.mem_cons, List.mem_singleton, List.not_mem_nil, or_false] at hit
      rcases hit with h | h <;> subst h <;>
        simp only [List.mem_cons, List.mem_singleton, List.not_mem_nil, or_false] at hm
      · rcases hm with h | h <;> subst h
        · exact absurd hidx (by decide)
        · rfl
      · subst hm
        exact absurd hidx (by decide))
    (by
      intro it hit
      simp only [List.mem_cons, List.mem_singleton, List.not_mem_nil, or_false] at hit
      rcases hit with h | h <;> subst h
      · exact ⟨{ Fields.zero with Summary := "Fix login" }, rfl⟩
      · exact ⟨{ Fields.zero with Summary := "Write docs" }, rfl⟩)⟩

/-- The body with one issue whose `assignee` is `null` and one issue without
`assignee`, evaluated: both issues come back with the empty user. -/
theorem SearchIssues_null_assignee_example :
    (NewClient ⟨"https://example.atlassian.net", "me@example.com", "secret"⟩).SearchIssues
        (fun _ => none)
        (fun _ _ =>
          ⟨200,
            some (.obj [("issues", .arr
              [ .obj [("key", .str "PROJ-1"),
                  ("fields", .obj [("summary", .str "Fix login"), ("assignee", .null)])],
                .obj [("key", .str "PROJ-2"),
                  ("fields", .obj [("summary", .str "Write docs")])] ])]),
            none⟩)
        "project = X" []
      = .ok ⟨0, 0, 0,
          [ ⟨"PROJ-1", "", "", { Fields.zero with Summary := "Fix login" }⟩,
            ⟨"PROJ-2", "", "", { Fields.zero with Summary := "Write docs" }⟩ ]⟩ ∧
    ({ Fields.zero with Summary := "Fix login" } : Fields).Assignee = User.zero := by
  exact ⟨rfl, rfl⟩

/-! ## Configuration check (C7) -/

/-- C7: `Config.Validate` returns an error exactly when at least one of
`Jira.Domain`, `Jira.Email`, `Jira.Token` is empty, and nil exactly when all
three are non-empty (so `config.New` fails on such a configuration); likewise
the legacy `main`, once the configuration is loaded, stops with exit code 1
before building any HTTP request exactly when one of the three is empty, and
otherwise goes on to build the request. -/
theorem C7_missing_credential_stops_before_request (c : Config) (cfg : App.JiraConfigs)
    (newRequestError : String → Option String)
    (send : App.HttpRequest → Except String App.HttpResponse) :
    (c.Validate ≠ none ↔ (c.Jira.Domain = "" ∨ c.Jira.Email = "" ∨ c.Jira.Token = "")) ∧
    (c.Validate = none ↔ (c.Jira.Domain ≠ "" ∧ c.Jira.Email ≠ "" ∧ c.Jira.Token ≠ "")) ∧
    ((∃ e, Config.New (.ok c) = .error e) ↔
      (c.Jira.Domain = "" ∨ c.Jira.Email = "" ∨ c.Jira.Token = "")) ∧
    ((∀ e ∈ App.main ⟨.ok cfg, newRequestError, send⟩, e.isRequest = false) ↔
      (cfg.Domain = "" ∨ cfg.Email = "" ∨ cfg.Token = "")) ∧
    (App.main ⟨.ok cfg, newRequestError, send⟩
        = [ .print "❌ Lỗi: Thiếu biến môi trường.\n",
            .print "Vui lòng set: JIRA_DOMAIN, JIRA_EMAIL, JIRA_TOKEN\n",
            .exit 1 ] ↔
      (cfg.Domain = "" ∨ cfg.Email = "" ∨ cfg.Token = "")) ∧
    ((∃ rest, App.main ⟨.ok cfg, newRequestError, send⟩
        = .newRequest "GET" (cfg.Domain ++ "/rest/api/3/search") :: rest) ↔
      (cfg.Domain ≠ "" ∧ cfg.Email ≠ "" ∧ cfg.Token ≠ "")) := by
  have hV : c.Validate = none ↔ (c.Jira.Domain ≠ "" ∧ c.Jira.Email ≠ "" ∧ c.Jira.Token ≠ "") := by
    unfold Config.Validate
    by_cases hd : c.Jira.Domain = "" <;> by_cases he : c.Jira.Email = "" <;>
      by_cases ht : c.Jira.Token = "" <;> simp [hd, he, ht]
  have hV2 : c.Validate ≠ none ↔ (c.Jira.Domain = "" ∨ c.Jira.Email = "" ∨ c.Jira.Token = "") := by
    rw [Ne, hV]
    by_cases hd : c.Jira.Domain = "" <;> by_cases he : c.Jira.Email = "" <;>
      by_cases ht : c.Jira.Token = "" <;> simp [hd, he, ht]
  refine ⟨hV2, hV, ?_, ?_, ?_, ?_⟩
  · rw [← hV2]
    unfold Config.New
    cases hv : c.Validate <;> simp [hv]
  · by_cases h : cfg.Domain = "" ∨ cfg.Email = "" ∨ cfg.Token = ""
    · have hb : (cfg.Domain == "" || cfg.Email == "" || cfg.Token == "") = true := by
        rcases h with hh | hh | hh <;> simp [hh]
      simp [App.main, hb, h, App.Event.isRequest]
    · have hb : (cfg.Domain == "" || cfg.Email == "" || cfg.Token == "") = false := by
        have hd : cfg.Domain ≠ "" := fun hh => h (Or.inl hh)
        have he : cfg.Email ≠ "" := fun hh => h (Or.inr (Or.inl hh))
        have ht : cfg.Token ≠ "" := fun hh => h (Or.inr (Or.inr hh))
        simp [hd, he, ht]
      simp only [h, iff_false]
      intro hall
      have := hall (.newRequest "GET" (cfg.Domain ++ "/rest/api/3/search"))
        (by simp [App.main, hb])
      simp [App.Event.isRequest] at this
  · by_cases h : cfg.Domain = "" ∨ cfg.Email = "" ∨ cfg.Token = ""
    · have hb : (cfg.Domain == "" || cfg.Email == "" || cfg.Token == "") = true := by
        rcases h with hh | hh | hh <;> simp [hh]
      simp [App.main, hb, h]
    · have hb : (cfg.Domain == "" || cfg.Email == "" || cfg.Token == "") = false := by
        have hd : cfg.Domain ≠ "" := fun hh => h (Or.inl hh)
        have he : cfg.Email ≠ "" := fun hh => h (Or.inr (Or.inl hh))
        have ht : cfg.Token ≠ "" := fun hh => h (Or.inr (Or.inr hh))
        simp [hd, he, ht]
      simp [App.main, hb, h]
  · by_cases h : cfg.Domain = "" ∨ cfg.Email = "" ∨ cfg.Token = ""
    · have hb : (cfg.Domain == "" || cfg.Email == "" || cfg.Token == "") = true := by
        rcases h with hh | hh | hh <;> simp [hh]
      have hn : ¬ (cfg.Domain ≠ "" ∧ cfg.Email ≠ "" ∧ cfg.Token ≠ "") := by
        intro hh
        rcases h with h | h | h
        · exact hh.1 h
        · exact hh.2.1 h
        · exact hh.2.2 h
      simp [App.main, hb, hn]
    · have hb : (cfg.Domain == "" || cfg.Email == "" || cfg.Token == "") = false := by
        have hd : cfg.Domain ≠ "" := fun hh => h (Or.inl hh)
        have he : cfg.Email ≠ "" := fun hh => h (Or.inr (Or.inl hh))
        have ht : cfg.Token ≠ "" := fun hh => h (Or.inr (Or.inr hh))
        simp [hd, he, ht]
      have hy : cfg.Domain ≠ "" ∧ cfg.Email ≠ "" ∧ cfg.Token ≠ "" := by
        refine ⟨fun hh => h (Or.inl hh), fun hh => h (Or.inr (Or.inl hh)),
          fun hh => h (Or.inr (Or.inr hh))⟩
      simp [App.main, hb, hy]

/-! ## The display row (C8, C9, C10) -/

/-- C8: for every issue, the status field of its display row is a glyph
followed by the status name; the glyph is the checkmark exactly when the name
is "Done" or "Resolved", the fire exactly when it is "In Progress", and the
neutral "todo " exactly for every other name (such as "Blocked", or "done" in
another case); it is a function of the status name alone. -/
theorem C8_status_glyph_by_exact_name (jiraConfigs : App.JiraConfigs) (issue : App.Issue) :
    (App.row jiraConfigs issue)[1]?
      = some (App.statusColor issue.Fields.Status.Name ++ issue.Fields.Status.Name) ∧
    (App.statusColor issue.Fields.Status.Name = "✅ " ↔
      (issue.Fields.Status.Name = "Done" ∨ issue.Fields.Status.Name = "Resolved")) ∧
    (App.statusColor issue.Fields.Status.Name = "🔥 " ↔
      issue.Fields.Status.Name = "In Progress") ∧
    (App.statusColor issue.Fields.Status.Name = "todo " ↔
      (issue.Fields.Status.Name ≠ "Done" ∧ issue.Fields.Status.Name ≠ "Resolved" ∧
        issue.Fields.Status.Name ≠ "In Progress")) ∧
    App.statusColor "Blocked" = "todo " ∧ App.statusColor "done" = "todo " := by
  refine ⟨rfl, ?_, ?_, ?_, by decide, by decide⟩
  · unfold App.statusColor
    by_cases h1 : issue.Fields.Status.Name = "Done"
    · simp [h1]
    · by_cases h2 : issue.Fields.Status.Name = "Resolved"
      · simp [h2]
      · by_cases h3 : issue.Fields.Status.Name = "In Progress"
        · simp [h3]
        · simp [h1, h2, h3]
  · unfold App.statusColor
    by_cases h1 : issue.Fields.Status.Name = "Done"
    · simp [h1]
    · by_cases h2 : issue.Fields.Status.Name = "Resolved"
      · simp [h2]
      · by_cases h3 : issue.Fields.Status.Name = "In Progress"
        · simp [h3]
        · simp [h1, h2, h3]
  · unfold App.statusColor
    by_cases h1 : issue.Fields.Status.Name = "Done"
    · simp [h1]
    · by_cases h2 : issue.Fields.Status.Name = "Resolved"
      · simp [h2]
      · by_cases h3 : issue.Fields.Status.Name = "In Progress"
        · simp [h3]
        · simp [h1, h2, h3]

/-- A digit character is one of the ten ASCII digits. -/
theorem isDigit_cases (c : Char) (h : isDigit c = true) :
    c = '0' ∨ c = '1' ∨ c = '2' ∨ c = '3' ∨ c = '4' ∨ c = '5' ∨ c = '6' ∨ c = '7' ∨
      c = '8' ∨ c = '9' := by
  unfold isDigit at h
  simp only [Bool.and_eq_true, decide_eq_true_eq] at h
  obtain ⟨hlo, hhi⟩ := h
  have hc : c = Char.ofNat c.toNat := (Char.ofNat_toNat c).symm
  generalize c.toNat = k at hc hlo hhi
  subst hc
  interval_cases k <;> decide

/-- A digit character is neither sign. -/
theorem isDigit_not_sign (c : Char) (h : isDigit c = true) : c ≠ '-' ∧ c ≠ '+' := by
  rcases isDigit_cases c h with h | h | h | h | h | h | h | h | h | h <;> subst h <;> decide

/-- Two digits are read by `getnum` as the number they write. -/
theorem getnum_two (c0 c1 : Char) (rest : List Char) (fixed : Bool)
    (h0 : isDigit c0 = true) (h1 : isDigit c1 = true) :
    getnum (c0 :: c1 :: rest) fixed = some (digits2 c0 c1, rest) := by
  simp [getnum, h0, h1, digits2]

/-- Two digits are printed back by `appendInt2` from the number they write. -/
theorem appendInt2_digits2 (c0 c1 : Char) (h0 : isDigit c0 = true) (h1 : isDigit c1 = true) :
    appendInt2 (digits2 c0 c1) = [c0, c1] := by
  rcases isDigit_cases c0 h0 with h | h | h | h | h | h | h | h | h | h <;> subst h <;>
    rcases isDigit_cases c1 h1 with h | h | h | h | h | h | h | h | h | h <;> subst h <;> rfl

/-- Four digits are read by `atoi` as the number they write. -/
theorem atoi_four (c0 c1 c2 c3 : Char) (h0 : isDigit c0 = true) (h1 : isDigit c1 = true)
    (h2 : isDigit c2 = true) (h3 : isDigit c3 = true) :
    atoi [c0, c1, c2, c3] = some ((digits4 c0 c1 c2 c3 : Nat) : Int) := by
  obtain ⟨hm, hp⟩ := isDigit_not_sign c0 h0
  simp [atoi, leadingInt, hm, hp, h0, h1, h2, h3, digits4]

/-- Three digits are read by `atoi` as a non-negative number. -/
theorem atoi_three (c0 c1 c2 : Char) (h0 : isDigit c0 = true) (h1 : isDigit c1 = true)
    (h2 : isDigit c2 = true) :
    atoi [c0, c1, c2]
      = some ((((digitVal c0 * 10 + digitVal c1) * 10 + digitVal c2 : Nat)) : Int) := by
  obtain ⟨hm, hp⟩ := isDigit_not_sign c0 h0
  simp [atoi, leadingInt, hm, hp, h0, h1, h2]

/-- The date chunks of a well-formed timestamp are read as written. -/
theorem parseDate_wellFormed (y0 y1 y2 y3 m0 m1 d0 d1 : Char) (rest : List Char)
    (hy0 : isDigit y0 = true) (hy1 : isDigit y1 = true) (hy2 : isDigit y2 = true)
    (hy3 : isDigit y3 = true) (hm0 : isDigit m0 = true) (hm1 : isDigit m1 = true)
    (hd0 : isDigit d0 = true) (hd1 : isDigit d1 = true)
    (hmonth : 1 ≤ digits2 m0 m1 ∧ digits2 m0 m1 ≤ 12) :
    parseDate (y0 :: y1 :: y2 :: y3 :: '-' :: m0 :: m1 :: '-' :: d0 :: d1 :: rest)
      = some (((digits4 y0 y1 y2 y3 : Nat) : Int), digits2 m0 m1, digits2 d0 d1, rest) := by
  have hyear : parseYear (y0 :: y1 :: y2 :: y3 :: '-' :: m0 :: m1 :: '-' :: d0 :: d1 :: rest)
      = some (((digits4 y0 y1 y2 y3 : Nat) : Int), '-' :: m0 :: m1 :: '-' :: d0 :: d1 :: rest) := by
    simp [parseYear, hy0, atoi_four y0 y1 y2 y3 hy0 hy1 hy2 hy3]
  have hm : ¬ (digits2 m0 m1 = 0 ∨ 12 < digits2 m0 m1) := by omega
  simp only [parseDate, hyear, skip, if_true, getnum_two m0 m1 _ true hm0 hm1, hm, if_false,
    getnum_two d0 d1 _ true hd0 hd1]

/-- The clock chunks of a well-formed timestamp are read as written. -/
theorem parseClock_wellFormed (h0 h1 n0 n1 s0 s1 : Char) (rest : List Char)
    (hh0 : isDigit h0 = true) (hh1 : isDigit h1 = true) (hn0 : isDigit n0 = true)
    (hn1 : isDigit n1 = true) (hs0 : isDigit s0 = true) (hs1 : isDigit s1 = true)
    (hhour : digits2 h0 h1 < 24) (hminute : digits2 n0 n1 < 60)
    (hsecond : digits2 s0 s1 < 60) :
    parseClock (h0 :: h1 :: ':' :: n0 :: n1 :: ':' :: s0 :: s1 :: rest)
      = some (digits2 h0 h1, digits2 n0 n1, digits2 s0 s1, rest) := by
  have hh : ¬ (24 ≤ digits2 h0 h1) := by omega
  have hn : ¬ (60 ≤ digits2 n0 n1) := by omega
  have hs : ¬ (60 ≤ digits2 s0 s1) := by omega
  simp only [parseClock, getnum_two h0 h1 _ false hh0 hh1, hh, if_false, skip, if_true,
    getnum_two n0 n1 _ true hn0 hn1, hn, getnum_two s0 s1 _ true hs0 hs1, hs]

/-- The fraction chunk of a well-formed timestamp is accepted. -/
theorem parseFraction_wellFormed (f0 f1 f2 : Char) (rest : List Char)
    (hf0 : isDigit f0 = true) (hf1 : isDigit f1 = true) (hf2 : isDigit f2 = true) :
    ∃ ns, parseFraction ('.' :: f0 :: f1 :: f2 :: rest) = some (ns, rest) := by
  refine ⟨((digitVal f0 * 10 + digitVal f1) * 10 + digitVal f2) * 1000000, ?_⟩
  have hat := atoi_three f0 f1 f2 hf0 hf1 hf2
  simp only [parseFraction, List.length_cons, List.head?_cons, List.drop_succ_cons,
    List.drop_zero, List.take_succ_cons, List.take_zero, hat]
  simp
  omega

/-- The offset chunk of a well-formed timestamp is accepted and ends the
input. -/
theorem parseZone_wellFormed (sg z0 z1 z2 z3 : Char)
    (hsg : sg = '+' ∨ sg = '-') (hz0 : isDigit z0 = true) (hz1 : isDigit z1 = true)
    (hz2 : isDigit z2 = true) (hz3 : isDigit z3 = true)
    (hzone : digits2 z0 z1 ≤ 24 ∧ digits2 z2 z3 ≤ 60) :
    ∃ off, parseZone [sg, z0, z1, z2, z3] = some (off, []) := by
  have hr : ¬ (24 < digits2 z0 z1 ∨ 60 < digits2 z2 z3) := by omega
  rcases hsg with h | h
  · subst h
    refine ⟨(((digits2 z0 z1 * 60 + digits2 z2 z3) * 60 : Nat) : Int), ?_⟩
    simp [parseZone, getnum_two z0 z1 [] true hz0 hz1, getnum_two z2 z3 [] true hz2 hz3, hr]
  · subst h
    refine ⟨-(((digits2 z0 z1 * 60 + digits2 z2 z3) * 60 : Nat) : Int), ?_⟩
    simp [parseZone, getnum_two z0 z1 [] true hz0 hz1, getnum_two z2 z3 [] true hz2 hz3, hr]

/-- A well-formed wire timestamp parses to the date and clock it writes. -/
theorem parseUpdated_wellFormed
    (y0 y1 y2 y3 m0 m1 d0 d1 h0 h1 n0 n1 s0 s1 f0 f1 f2 sg z0 z1 z2 z3 : Char)
    (hdigits : ∀ c ∈ [y0, y1, y2, y3, m0, m1, d0, d1, h0, h1, n0, n1, s0, s1, f0, f1, f2,
      z0, z1, z2, z3], isDigit c = true)
    (hsg : sg = '+' ∨ sg = '-')
    (hmonth : 1 ≤ digits2 m0 m1 ∧ digits2 m0 m1 ≤ 12)
    (hday : 1 ≤ digits2 d0 d1 ∧
      digits2 d0 d1 ≤ daysIn (digits2 m0 m1) ((digits4 y0 y1 y2 y3 : Nat) : Int))
    (hhour : digits2 h0 h1 < 24) (hminute : digits2 n0 n1 < 60)
    (hsecond : digits2 s0 s1 < 60)
    (hzone : digits2 z0 z1 ≤ 24 ∧ digits2 z2 z3 ≤ 60) :
    ∃ t, parseUpdated (String.mk [y0, y1, y2, y3, '-', m0, m1, '-', d0, d1, 'T', h0, h1, ':',
        n0, n1, ':', s0, s1, '.', f0, f1, f2, sg, z0, z1, z2, z3]) = some t ∧
      t.hour = digits2 h0 h1 ∧ t.minute = digits2 n0 n1 ∧ t.day = digits2 d0 d1 ∧
      t.month = digits2 m0 m1 := by
  have hd : ∀ c, c ∈ [y0, y1, y2, y3, m0, m1, d0, d1, h0, h1, n0, n1, s0, s1, f0, f1, f2,
      z0, z1, z2, z3] → isDigit c = true := hdigits
  have hdate := parseDate_wellFormed y0 y1 y2 y3 m0 m1 d0 d1
    ('T' :: h0 :: h1 :: ':' :: n0 :: n1 :: ':' :: s0 :: s1 :: '.' :: f0 :: f1 :: f2 ::
      [sg, z0, z1, z2, z3])
    (hd y0 (by simp)) (hd y1 (by simp)) (hd y2 (by simp)) (hd y3 (by simp))
    (hd m0 (by simp)) (hd m1 (by simp)) (hd d0 (by simp)) (hd d1 (by simp)) hmonth
  have hclock := parseClock_wellFormed h0 h1 n0 n1 s0 s1
    ('.' :: f0 :: f1 :: f2 :: [sg, z0, z1, z2, z3])
    (hd h0 (by simp)) (hd h1 (by simp)) (hd n0 (by simp)) (hd n1 (by simp))
    (hd s0 (by simp)) (hd s1 (by simp)) hhour hminute hsecond
  obtain ⟨ns, hfrac⟩ := parseFraction_wellFormed f0 f1 f2 [sg, z0, z1, z2, z3]
    (hd f0 (by simp)) (hd f1 (by simp)) (hd f2 (by simp))
  obtain ⟨off, hzn⟩ := parseZone_wellFormed sg z0 z1 z2 z3 hsg
    (hd z0 (by simp)) (hd z1 (by simp)) (hd z2 (by simp)) (hd z3 (by simp)) hzone
  have hdayOk : ¬ (digits2 d0 d1 < 1 ∨
      daysIn (digits2 m0 m1) ((digits4 y0 y1 y2 y3 : Nat) : Int) < digits2 d0 d1) := by
    omega
  refine ⟨{ year := ((digits4 y0 y1 y2 y3 : Nat) : Int), month := digits2 m0 m1,
            day := digits2 d0 d1, hour := digits2 h0 h1, minute := digits2 n0 n1,
            second := digits2 s0 s1, nanosecond := ns, zoneOffset := off }, ?_, rfl, rfl, rfl, rfl⟩
  simp only [parseUpdated, String.toList, hdate, skip, if_true, hclock, hfrac, hzn, ne_eq,
    not_true_eq_false, if_false, hdayOk]

/-- C9: for every issue whose updated string is a well-formed wire timestamp
`YYYY-MM-DDTHH:MM:SS.mmm±hhmm` (digits in the digit places, a month in 1..12,
a day that exists in that month, hour below 24, minute and second below 60,
offset hours at most 24 and minutes at most 60), the time field of its display
row is `HH:MM DD/MM` made of the very hour, minute, day and month digits of
that string, whatever the offset. -/
theorem C9_wellformed_timestamp_renders_its_own_clock (jiraConfigs : App.JiraConfigs)
    (key summary status : String)
    (y0 y1 y2 y3 m0 m1 d0 d1 h0 h1 n0 n1 s0 s1 f0 f1 f2 sg z0 z1 z2 z3 : Char)
    (hdigits : ∀ c ∈ [y0, y1, y2, y3, m0, m1, d0, d1, h0, h1, n0, n1, s0, s1, f0, f1, f2,
      z0, z1, z2, z3], isDigit c = true)
    (hsg : sg = '+' ∨ sg = '-')
    (hmonth : 1 ≤ digits2 m0 m1 ∧ digits2 m0 m1 ≤ 12)
    (hday : 1 ≤ digits2 d0 d1 ∧
      digits2 d0 d1 ≤ daysIn (digits2 m0 m1) ((digits4 y0 y1 y2 y3 : Nat) : Int))
    (hhour : digits2 h0 h1 < 24) (hminute : digits2 n0 n1 < 60)
    (hsecond : digits2 s0 s1 < 60)
    (hzone : digits2 z0 z1 ≤ 24 ∧ digits2 z2 z3 ≤ 60) :
    (App.row jiraConfigs
        ⟨key, ⟨summary, ⟨status⟩,
          String.mk [y0, y1, y2, y3, '-', m0, m1, '-', d0, d1, 'T', h0, h1, ':', n0, n1, ':',
            s0, s1, '.', f0, f1, f2, sg, z0, z1, z2, z3]⟩⟩)[2]?
      = some (String.mk [h0, h1, ':', n0, n1, ' ', d0, d1, '/', m0, m1]) := by
  obtain ⟨t, ht, hH, hN, hD, hM⟩ := parseUpdated_wellFormed y0 y1 y2 y3 m0 m1 d0 d1 h0 h1
    n0 n1 s0 s1 f0 f1 f2 sg z0 z1 z2 z3 hdigits hsg hmonth hday hhour hminute hsecond hzone
  have hd : ∀ c, c ∈ [y0, y1, y2, y3, m0, m1, d0, d1, h0, h1, n0, n1, s0, s1, f0, f1, f2,
      z0, z1, z2, z3] → isDigit c = true := hdigits
  have e1 := appendInt2_digits2 h0 h1 (hd h0 (by simp)) (hd h1 (by simp))
  have e2 := appendInt2_digits2 n0 n1 (hd n0 (by simp)) (hd n1 (by simp))
  have e3 := appendInt2_digits2 d0 d1 (hd d0 (by simp)) (hd d1 (by simp))
  have e4 := appendInt2_digits2 m0 m1 (hd m0 (by simp)) (hd m1 (by simp))
  simp [App.row, App.timeStr, ht, Time.Format, hH, hN, hD, hM, e1, e2, e3, e4]

/-- Witness of C9: `2024-01-15T09:30:00.000+0700` renders as `09:30 15/01`. -/
theorem C9_witness_example :
    (App.row ⟨"https://example.atlassian.net", "me@example.com", "secret"⟩
        ⟨"PROJ-1", ⟨"Fix login", ⟨"Done"⟩, "2024-01-15T09:30:00.000+0700"⟩⟩)[2]?
      = some "09:30 15/01" :=
  C9_wellformed_timestamp_renders_its_own_clock
    ⟨"https://example.atlassian.net", "me@example.com", "secret"⟩ "PROJ-1" "Fix login" "Done"
    '2' '0' '2' '4' '0' '1' '1' '5' '0' '9' '3' '0' '0' '0' '0' '0' '0' '+' '0' '7' '0' '0'
    (by decide) (by decide) (by decide) (by decide) (by decide) (by decide) (by decide)
    (by decide)

/-- C10 (as stated, refuted): for the empty updated string, which does not
parse, the time field of the row is `00:00 01/01`, not the empty string. -/
theorem C10_counterexample_unparsed_time_is_not_empty :
    parseUpdated "" = none ∧
    (App.row ⟨"https://example.atlassian.net", "me@example.com", "secret"⟩
        ⟨"PROJ-1", ⟨"Fix login", ⟨"Done"⟩, ""⟩⟩)[2]? = some "00:00 01/01" ∧
    (App.row ⟨"https://example.atlassian.net", "me@example.com", "secret"⟩
        ⟨"PROJ-1", ⟨"Fix login", ⟨"Done"⟩, ""⟩⟩)[2]? ≠ some "" := by
  decide

/-- C10 (amended): for every issue whose updated string does not parse in the
wire timestamp format, the row is still produced, with its key, glyph and
status, summary and link, and its time field is `00:00 01/01` (the zero time,
formatted); `renderTable` returns no error. -/
theorem C10_unparsed_time_renders_zero_time (jiraConfigs : App.JiraConfigs)
    (issue : App.Issue) (h : parseUpdated issue.Fields.Updated = none) :
    App.row jiraConfigs issue
      = [ issue.Key,
          App.statusColor issue.Fields.Status.Name ++ issue.Fields.Status.Name,
          "00:00 01/01",
          issue.Fields.Summary,
          jiraConfigs.Domain ++ "/browse/" ++ issue.Key ] ∧
    (App.renderTable jiraConfigs [issue]).rows = [App.row jiraConfigs issue] := by
  constructor
  · have hz : Time.zero.Format = "00:00 01/01" := by decide
    simp [App.row, App.timeStr, h, hz]
  · rfl

/-- Witness of C10 (amended): an updated string that is not a timestamp. -/
theorem C10_witness_not_a_timestamp :
    App.row ⟨"https://example.atlassian.net", "me@example.com", "secret"⟩
        ⟨"PROJ-2", ⟨"Write docs", ⟨"Blocked"⟩, "yesterday"⟩⟩
      = ["PROJ-2", "todo Blocked", "00:00 01/01", "Write docs",
          "https://example.atlassian.net/browse/PROJ-2"] :=
  (C10_unparsed_time_renders_zero_time
    ⟨"https://example.atlassian.net", "me@example.com", "secret"⟩
    ⟨"PROJ-2", ⟨"Write docs", ⟨"Blocked"⟩, "yesterday"⟩⟩ (by decide)).1

/-! ## The notification path after decoding (C11) and the table (C12) -/

/-- C11: when the configuration is complete, the request was built and
answered with status 200 and the body decoded, then an empty issue list makes
`main` print the "no results" message as its last step and hand nothing to the
table renderer, and a non-empty issue list makes it hand the whole list to the
renderer exactly once, as its last step (and print nothing). -/
theorem C11_empty_list_skips_renderer (cfg : App.JiraConfigs)
    (newRequestError : String → Option String)
    (send : App.HttpRequest → Except String App.HttpResponse)
    (resp : App.HttpResponse) (data : App.JiraResponse)
    (hcfg : cfg.Domain ≠ "" ∧ cfg.Email ≠ "" ∧ cfg.Token ≠ "")
    (hreq : newRequestError (cfg.Domain ++ "/rest/api/3/search") = none)
    (hsend : ∀ req, send req = .ok resp)
    (hstatus : resp.StatusCode = 200)
    (hdata : unmarshal App.JiraResponse.store ⟨[]⟩ resp.Body = some data) :
    (data.Issues = [] →
      (App.main ⟨.ok cfg, newRequestError, send⟩).filter App.Event.isRender = [] ∧
      ∃ req, App.main ⟨.ok cfg, newRequestError, send⟩
        = [ .newRequest "GET" (cfg.Domain ++ "/rest/api/3/search"), .send req,
            .print "✅ Không có thông báo mới nào trong 24h qua!\n" ]) ∧
    (data.Issues ≠ [] →
      (App.main ⟨.ok cfg, newRequestError, send⟩).filter App.Event.isRender
        = [.render (App.renderTable cfg data.Issues)] ∧
      ∃ req, App.main ⟨.ok cfg, newRequestError, send⟩
        = [ .newRequest "GET" (cfg.Domain ++ "/rest/api/3/search"), .send req,
            .render (App.renderTable cfg data.Issues) ]) := by
  obtain ⟨hd, he, ht⟩ := hcfg
  have hb : (cfg.Domain == "" || cfg.Email == "" || cfg.Token == "") = false := by
    simp [hd, he, ht]
  constructor
  · intro hempty
    have hlen : data.Issues.length = 0 := by simp [hempty]
    constructor
    · simp [App.main, hb, hreq, hsend, hstatus, hdata, hlen, App.Event.isRender]
    · simp [App.main, hb, hreq, hsend, hstatus, hdata, hlen]
  · intro hne
    have hlen : ¬ data.Issues.length = 0 := by
      intro h
      exact hne (List.length_eq_zero.mp h)
    constructor
    · simp [App.main, hb, hreq, hsend, hstatus, hdata, hlen, App.Event.isRender]
    · simp [App.main, hb, hreq, hsend, hstatus, hdata, hlen]

/-- Witness of C11: a 200 answer whose body has an empty `issues` array gives
no render step and ends with the "no results" message. -/
theorem C11_witness_empty_issues :
    (App.main ⟨.ok ⟨"https://example.atlassian.net", "me@example.com", "secret"⟩,
        fun _ => none,
        fun _ => .ok ⟨200, "200 OK", some (.obj [("issues", .arr [])])⟩⟩).filter
      App.Event.isRender = [] :=
  ((C11_empty_list_skips_renderer
    ⟨"https://example.atlassian.net", "me@example.com", "secret"⟩ (fun _ => none)
    (fun _ => .ok ⟨200, "200 OK", some (.obj [("issues", .arr [])])⟩)
    ⟨200, "200 OK", some (.obj [("issues", .arr [])])⟩ ⟨[]⟩
    (by decide) rfl (fun _ => rfl) rfl rfl).1 rfl).1

/-- The loop of `renderTable` started from any table keeps its header and
appends the rows of the issues, in order. -/
theorem renderTable_loop (jiraConfigs : App.JiraConfigs) (issues : List App.Issue)
    (table : App.Table) :
    issues.foldl
        (fun table issue => { table with rows := table.rows ++ [App.row jiraConfigs issue] })
        table
      = { header := table.header, rows := table.rows ++ issues.map (App.row jiraConfigs) } := by
  induction issues generalizing table with
  | nil => simp
  | cons issue rest ih => simp [List.foldl_cons, ih]

/-- C12: for every domain and every list of issues, `renderTable` appends
exactly one row per issue, in input order, and each row has exactly the five
fields key, glyph and status, formatted time, summary, link, where the key and
the summary are unchanged and the link is the domain followed by `/browse/`
followed by the key. -/
theorem C12_one_five_field_row_per_issue (jiraConfigs : App.JiraConfigs)
    (issues : List App.Issue) :
    (App.renderTable jiraConfigs issues).rows = issues.map (App.row jiraConfigs) ∧
    (App.renderTable jiraConfigs issues).rows.length = issues.length ∧
    (App.renderTable jiraConfigs issues).header
      = ["Key", "Status", "Updated", "Summary", "Link"] ∧
    ∀ issue : App.Issue,
      (App.row jiraConfigs issue).length = 5 ∧
      App.row jiraConfigs issue
        = [ issue.Key,
            App.statusColor issue.Fields.Status.Name ++ issue.Fields.Status.Name,
            App.timeStr issue.Fields.Updated,
            issue.Fields.Summary,
            jiraConfigs.Domain ++ "/browse/" ++ issue.Key ] := by
  have h := renderTable_loop jiraConfigs issues
    { header := ["Key", "Status", "Updated", "Summary", "Link"], rows := [] }
  have hrows : (App.renderTable jiraConfigs issues).rows = issues.map (App.row jiraConfigs) := by
    unfold App.renderTable
    rw [h]
    simp
  refine ⟨hrows, ?_, ?_, fun issue => ⟨rfl, rfl⟩⟩
  · rw [hrows, List.length_map]
  · unfold App.renderTable
    rw [h]

/-! ## Size of the returned page (C13) -/

/-- A successful element-wise decoding returns as many values as the array
has elements. -/
theorem decodeOnto_length {α : Type} (decodeInto : α → JSON → Option α) (zero : α)
    (targets : List α) (elems : List JSON) (vs : List α)
    (h : decodeOnto decodeInto zero targets elems = some vs) : vs.length = elems.length := by
  induction elems generalizing targets vs with
  | nil =>
    simp [decodeOnto] at h
    subst h
    rfl
  | cons x xs ih =>
    unfold decodeOnto at h
    cases hx : decodeInto (targets.headD zero) x with
    | none =>
      rw [hx] at h
      simp at h
    | some a =>
      rw [hx] at h
      simp only at h
      cases hxs : decodeOnto decodeInto zero targets.tail xs with
      | none =>
        rw [hxs] at h
        simp at h
      | some as =>
        rw [hxs] at h
        simp only [Option.some.injEq] at h
        subst h
        simp [ih targets.tail as hxs]

/-- A JSON array stored into a slice leaves the slice with the length of the
array. -/
theorem storeSlice_length {α : Type} (decodeInto : α → JSON → Option α) (zero : α)
    (cur r : Slice α) (elems : List JSON)
    (h : storeSlice decodeInto zero cur (JSON.arr elems) = some r) :
    r.elems.length = elems.length := by
  unfold storeSlice at h
  cases elems with
  | nil =>
    simp at h
    rw [← h]
    rfl
  | cons x xs =>
    simp only [Option.map_eq_some'] at h
    obtain ⟨vs, hvs, hr⟩ := h
    rw [← hr]
    exact decodeOnto_length _ _ _ _ _ hvs

/-- Decoding the members `front ++ back` of an object is decoding `front` and
then `back` into the result. -/
theorem SearchResult_storeInto_append (rfc3339 : String → Option Time)
    (front back : List (String × JSON)) (cur : SearchResult.Decoding) :
    SearchResult.storeInto rfc3339 cur (JSON.obj (front ++ back))
      = (SearchResult.storeInto rfc3339 cur (JSON.obj front)).bind fun mid =>
          SearchResult.storeInto rfc3339 mid (JSON.obj back) := by
  unfold SearchResult.storeInto storeStruct
  simp only [List.foldlM_append]
  rfl

/-- Decoding an object whose first member selects field `i` stores that member
and then decodes the remaining members into the result. -/
theorem SearchResult_storeInto_cons (rfc3339 : String → Option Time) (key : String)
    (value : JSON) (rest : List (String × JSON)) (cur : SearchResult.Decoding) (i : Nat)
    (hi : fieldIndex SearchResult.names key = some i) :
    SearchResult.storeInto rfc3339 cur (JSON.obj ((key, value) :: rest))
      = (SearchResult.setField rfc3339 i cur value).bind fun mid =>
          SearchResult.storeInto rfc3339 mid (JSON.obj rest) := by
  unfold SearchResult.storeInto storeStruct
  simp only [List.foldlM_cons, hi]
  rfl

/-- Members that do not select `issues` leave `Issues` as it was whenever the
decoding succeeds. -/
theorem SearchResult_other_members_keep_Issues (rfc3339 : String → Option Time)
    (members : List (String × JSON)) (cur r : SearchResult.Decoding)
    (h1 : ∀ m ∈ members, fieldIndex SearchResult.names m.1 ≠ some 3)
    (h : SearchResult.storeInto rfc3339 cur (JSON.obj members) = some r) :
    r.value.Issues = cur.value.Issues := by
  unfold SearchResult.storeInto storeStruct at h
  simp only at h
  induction members generalizing cur with
  | nil =>
    simp at h
    rw [← h]
  | cons m rest ih =>
    have hrest : ∀ x ∈ rest, fieldIndex SearchResult.names x.1 ≠ some 3 := fun x hx =>
      h1 x (List.mem_cons_of_mem _ hx)
    have hm := h1 m (List.mem_cons_self _ _)
    rw [List.foldlM_cons] at h
    cases hidx : fieldIndex SearchResult.names m.1 with
    | none =>
      simp only [hidx, Option.bind_eq_bind, Option.some_bind] at h
      exact ih cur hrest h
    | some i =>
      have hi3 : i ≠ 3 := fun hh => hm (by rw [hidx, hh])
      simp only [hidx, Option.bind_eq_bind] at h
      cases hset : SearchResult.setField rfc3339 i cur m.2 with
      | none => simp [hset] at h
      | some mid =>
        simp only [hset, Option.some_bind] at h
        have hmid : mid.value.Issues = cur.value.Issues := by
          unfold SearchResult.setField at hset
          split at hset <;> first
            | exact absurd rfl hi3
            | (simp only [Option.map_eq_some'] at hset
               obtain ⟨x, _, hx⟩ := hset
               rw [← hx])
            | (simp only [Option.some.injEq] at hset
               rw [← hset])
        rw [ih mid hrest h, hmid]

/-- A successful operation had no transport error, status 200, and a body that
decoded to the returned value. -/
theorem handleResponse_ok_inv {α : Type} (context : String) (decode : Option JSON → Option α)
    (x : Exchange) (v : α) (h : handleResponse context decode x = .ok v) :
    x.err = none ∧ x.StatusCode = 200 ∧ decode x.Body = some v := by
  unfold handleResponse at h
  cases herr : x.err with
  | some cause => simp [herr] at h
  | none =>
    simp only [herr] at h
    by_cases hs : x.StatusCode = 200
    · simp only [hs, ne_eq, not_true_eq_false, if_false] at h
      cases hd : decode x.Body with
      | none => simp [hd] at h
      | some w =>
        simp only [hd, Except.ok.injEq] at h
        exact ⟨rfl, hs, by rw [h]⟩
    · simp [hs] at h

/-- C13 (as stated, refuted): with the option `WithLimit(1)` the composed
Limit is 1, yet a 200 answer whose `issues` array has two elements makes
`SearchIssues` succeed with two issues. -/
theorem C13_counterexample_two_issues_under_limit_one :
    (composedOptions [OptionCall.withLimit 1]).Limit = 1 ∧
    (NewClient ⟨"https://example.atlassian.net", "me@example.com", "secret"⟩).SearchIssues
        (fun _ => none)
        (fun _ _ =>
          ⟨200,
            some (.obj [("issues",
              .arr [.obj [("key", .str "PROJ-1")], .obj [("key", .str "PROJ-2")]])]),
            none⟩)
        "project = X" [WithLimit 1]
      = .ok ⟨0, 0, 0, [⟨"PROJ-1", "", "", Fields.zero⟩, ⟨"PROJ-2", "", "", Fields.zero⟩]⟩ ∧
    ¬ ((([⟨"PROJ-1", "", "", Fields.zero⟩, ⟨"PROJ-2", "", "", Fields.zero⟩] :
        List Issue).length : Int) ≤ (composedOptions [OptionCall.withLimit 1]).Limit) := by
  refine ⟨by decide, rfl, by decide⟩

/-- C13 (amended): for every successful `SearchIssues` call whose body is an
object with an `issues` array (the last member selecting the field), the
number of issues in the returned `SearchResult` is the number of elements of
that array; hence it is at most the Limit of the composed options exactly when
the server answered with at most that many elements. -/
theorem C13_returned_count_is_the_bodys (c : restClient) (rfc3339 : String → Option Time)
    (server : Request → Nat → Exchange) (jql : String) (opts : List SearchOption)
    (r : SearchResult) (front back : List (String × JSON)) (key : String)
    (elems : List JSON)
    (hok : c.SearchIssues rfc3339 server jql opts = .ok r)
    (hbody : (c.get server (searchRequest c.config jql opts)).Body
      = some (JSON.obj (front ++ (key, JSON.arr elems) :: back)))
    (hkey : fieldIndex SearchResult.names key = some 3)
    (hback : ∀ m ∈ back, fieldIndex SearchResult.names m.1 ≠ some 3) :
    r.Issues.length = elems.length ∧
    ((r.Issues.length : Int) ≤ (applyOptions opts).Limit ↔
      (elems.length : Int) ≤ (applyOptions opts).Limit) := by
  have hlen : r.Issues.length = elems.length := by
    have hinv := handleResponse_ok_inv "search failed"
      (unmarshal (SearchResult.store rfc3339) SearchResult.zero)
      (c.get server (searchRequest c.config jql opts)) r hok
    obtain ⟨_, _, hdec⟩ := hinv
    rw [hbody] at hdec
    simp only [unmarshal, SearchResult.store, Option.map_eq_some'] at hdec
    obtain ⟨t, hdec, htr⟩ := hdec
    rw [SearchResult_storeInto_append] at hdec
    cases hfront : SearchResult.storeInto rfc3339 ⟨SearchResult.zero, []⟩ (JSON.obj front) with
    | none => simp [hfront] at hdec
    | some mid =>
      simp only [hfront, Option.some_bind] at hdec
      rw [SearchResult_storeInto_cons rfc3339 key (JSON.arr elems) back mid 3 hkey] at hdec
      cases hset : SearchResult.setField rfc3339 3 mid (JSON.arr elems) with
      | none => simp [hset] at hdec
      | some mid2 =>
        simp only [hset, Option.some_bind] at hdec
        have hkeep := SearchResult_other_members_keep_Issues rfc3339 back mid2 t hback hdec
        simp only [SearchResult.setField, Option.map_eq_some'] at hset
        obtain ⟨sl, hsl, hmid2⟩ := hset
        rw [← htr, hkeep, ← hmid2]
        exact storeSlice_length _ _ _ _ _ hsl
  exact ⟨hlen, by rw [hlen]⟩

/-- Witness of C13 (amended): two elements in the body, two issues returned,
under the Limit 5. -/
theorem C13_witness_two_issues :
    ([⟨"PROJ-1", "", "", Fields.zero⟩, ⟨"PROJ-2", "", "", Fields.zero⟩] : List Issue).length
      = [JSON.obj [("key", .str "PROJ-1")], JSON.obj [("key", .str "PROJ-2")]].length :=
  (C13_returned_count_is_the_bodys
    (NewClient ⟨"https://example.atlassian.net", "me@example.com", "secret"⟩) (fun _ => none)
    (fun _ _ =>
      ⟨200,
        some (.obj [("total", .int 2), ("issues",
          .arr [.obj [("key", .str "PROJ-1")], .obj [("key", .str "PROJ-2")]])]),
        none⟩)
    "project = X" [WithLimit 5]
    ⟨0, 0, 2, [⟨"PROJ-1", "", "", Fields.zero⟩, ⟨"PROJ-2", "", "", Fields.zero⟩]⟩
    [("total", .int 2)] [] "issues"
    [.obj [("key", .str "PROJ-1")], .obj [("key", .str "PROJ-2")]]
    rfl rfl (by decide) (by simp)).1

end Jirar
